import Mathlib

/-!
Verification development for the spotdl-v4 matching / download pipeline.

The Python source is embedded shallowly:
* machine text is `String` / `List Char`, with Python string primitives
  (`str.replace`, `in`, `str.split`, `str.endswith`) re-implemented as
  executable Lean functions over `List Char`;
* Python floats are modelled as exact rationals `ℚ` (the claims checked
  here are exact arithmetic identities and inequalities);
* Python exceptions are modelled with `Option` / `Except` (`none` /
  `Except.error` = the corresponding call raised);
* the external collaborators (fuzzy matcher `match_percentage`, the
  `slugify` library, the YTMusic client, ffmpeg, the file system, ...)
  are parameters of the embedded functions.
-/

namespace SpotdlV4

deriving instance DecidableEq for Except

/-- Python `needle in hay` (substring containment) over character lists. -/
def containsSub (hay needle : List Char) : Bool :=
  needle.isPrefixOf hay ||
    match hay with
    | [] => false
    | _ :: t => containsSub t needle

/-- Python `needle in hay` over strings. -/
def strContainsSub (hay needle : String) : Bool :=
  containsSub hay.data needle.data

/-- Python `hay.endswith suf` over strings. -/
def strEndsWith (hay suf : String) : Bool :=
  suf.data.reverse.isPrefixOf hay.data.reverse

/-- Python `s.replace(k, v)` (left-to-right, non-overlapping) over
character lists, with a structural fuel that is never exhausted when it
starts at the length of the text (each step consumes at least one
character).  Python's empty-pattern behaviour is never exercised by the
source (all patterns are literal nonempty keys); for `k = []` the text
is returned unchanged. -/
def pyReplaceAux (k v : List Char) : Nat → List Char → List Char
  | 0, cs => cs
  | _ + 1, [] => []
  | fuel + 1, c :: cs =>
    if k.isPrefixOf (c :: cs) && !k.isEmpty then
      v ++ pyReplaceAux k v fuel ((c :: cs).drop k.length)
    else
      c :: pyReplaceAux k v fuel cs

/-- Python `s.replace(k, v)` over character lists. -/
def pyReplaceL (k v : List Char) (cs : List Char) : List Char :=
  pyReplaceAux k v cs.length cs

/-- Python `s.replace(k, v)` over strings. -/
def pyReplace (s k v : String) : String :=
  ⟨pyReplaceL k.data v.data s.data⟩

/-- Split a character list at every occurrence of `sep`
(Python `s.split(sep)` for a one-character separator). -/
def splitOnCharL (sep : Char) : List Char → List (List Char)
  | [] => [[]]
  | c :: cs =>
    let r := splitOnCharL sep cs
    if c = sep then
      [] :: r
    else
      match r with
      | h :: t => (c :: h) :: t
      | [] => [[c]]

/-- Python `s.split(sep)` over strings, one-character separator. -/
def splitOnChar (sep : Char) (s : String) : List String :=
  (splitOnCharL sep s.data).map (fun cs => ⟨cs⟩)

/-- Python `sep.join(l)`. -/
def strJoin (sep : String) : List String → String
  | [] => ""
  | [x] => x
  | x :: xs => x ++ sep ++ strJoin sep xs

/-- Python `s.strip()` (ASCII whitespace). -/
def pyStrip (s : String) : String :=
  ⟨((s.data.dropWhile Char.isWhitespace).reverse.dropWhile Char.isWhitespace).reverse⟩

/-- Python `s.lower()` (ASCII model). -/
def pyLower (s : String) : String :=
  ⟨s.data.map Char.toLower⟩

/-- Python `int(s)` restricted to ASCII: optional surrounding whitespace,
optional sign, then decimal digits with single underscores allowed
between digit groups.  `none` models a raised `ValueError`. -/
def pyIntDigits : List Char → Option ℤ → Option ℤ
  | [], acc => acc
  | '_' :: c :: cs, some acc =>
    if c.isDigit then pyIntDigits cs (some (acc * 10 + (c.toNat - 48)))
    else none
  | c :: cs, some acc =>
    if c.isDigit then pyIntDigits cs (some (acc * 10 + (c.toNat - 48)))
    else none
  | _, none => none

/-- Python `int(s)` (ASCII model).  `none` = `ValueError`. -/
def pyInt (s : String) : Option ℤ :=
  let t := (pyStrip s).data
  let (sign, digits) : ℤ × List Char :=
    match t with
    | '-' :: rest => (-1, rest)
    | '+' :: rest => (1, rest)
    | rest => (1, rest)
  match digits with
  | [] => none
  | c :: cs =>
    if c.isDigit then
      (pyIntDigits cs (some ((c.toNat : ℤ) - 48))).map (fun n => sign * n)
    else
      none

/-- `spotdl.utils.formatter.parse_duration`: convert an optional
`"h:m:s"`-style string to seconds.  `zip` truncates to the three weights
`[1, 60, 3600]`, exactly as `zip([1, 60, 3600], reversed(...))` does in
the source; `sumWeighted` is the summed generator
`sum(multiplier * int(time) ...)`, whose `none` models the `int()`
`ValueError` that the source catches and turns into `0.0`. -/
def sumWeighted : List (ℤ × String) → Option ℤ
  | [] => some 0
  | mt :: rest =>
    match pyInt mt.2 with
    | none => none
    | some n => (sumWeighted rest).map (fun acc => mt.1 * n + acc)

/-- `spotdl.utils.formatter.parse_duration` proper. -/
def parse_duration (duration : Option String) : ℚ :=
  match duration with
  | none => 0
  | some s =>
    let pieces := (splitOnChar ':' s).reverse
    let zipped := List.zip [(1 : ℤ), 60, 3600] pieces
    match sumWeighted zipped with
    | some n => (n : ℚ)
    | none => 0

/-- Modelled from the spec: `spotdl/types/song.py` is not among the given
source files; the spec's Track is "identifier (optional universal
recording code), title, ordered list of artist names, album name,
duration in seconds", and the formatter / downloader source additionally
reads the plain data fields below (`album_artist`, `genres`,
`disc_number`, ..., `display_name`, `url`, `download_url`).  `Song` is an
immutable record of those fields. -/
structure Song where
  name : String
  artists : List String
  artist : String
  album_name : String
  album_artist : String
  genres : List String
  disc_number : ℤ
  disc_count : ℤ
  duration : ℤ
  year : ℤ
  date : String
  track_number : ℤ
  tracks_count : ℤ
  isrc : Option String
  song_id : String
  display_name : String
  url : String
  download_url : Option String
deriving DecidableEq, Repr

/-- `spotdl.utils.formatter.create_song_title`. -/
def create_song_title (song_name : String) (song_artists : List String) : String :=
  let joined_artists := strJoin ", " song_artists
  if 1 ≤ song_artists.length then
    joined_artists ++ " - " ++ song_name
  else
    song_name

/-- `spotdl.utils.formatter.sanitize_string`: drop the characters
disallowed on Windows, then turn double quotes into apostrophes and
colons into hyphens (the two `str.replace` calls are single-character
substitutions, i.e. a character map). -/
def sanitize_string (s : String) : String :=
  let dropped := s.data.filter (fun c => !(("/?\\*|<>".data).contains c))
  let mapped := dropped.map (fun c =>
    if c = '"' then Char.ofNat 39
    else if c = ':' then '-'
    else c)
  ⟨mapped⟩

/-- The `formats` dict of `create_file_name`, in its insertion order
(the replacement loop iterates in this order).  `str(None)` for a
missing ISRC renders as `"None"`, as in Python.  Python indexes
`song.artists[0]` (an `IndexError` for an empty artist list); the
embedding is only used with nonempty artist lists and takes the head. -/
def formatKVs (song : Song) (fileExtension : String) (short : Bool) :
    List (String × String) :=
  [("{title}", song.name),
   ("{artists}", if short then song.artists.headD "" else strJoin ", " song.artists),
   ("{artist}", song.artists.headD ""),
   ("{album}", song.album_name),
   ("{album-artist}", song.album_artist),
   ("{genre}", song.genres.headD ""),
   ("{disc-number}", toString song.disc_number),
   ("{disc-count}", toString song.disc_count),
   ("{duration}", toString song.duration),
   ("{year}", toString song.year),
   ("{original-date}", song.date),
   ("{track-number}", toString song.track_number),
   ("{tracks-count}", toString song.tracks_count),
   ("{isrc}", match song.isrc with | some i => i | none => "None"),
   ("{track-id}", song.song_id),
   ("{output-ext}", fileExtension)]

/-- POSIX `PurePath` components of a string: split on `/`, dropping
empty segments and single dots (pathlib collapses both). -/
def pathComponents (s : String) : List String :=
  ((splitOnCharL '/' s.data).map (fun cs => (⟨cs⟩ : String))).filter
    (fun p => p ≠ "" && p ≠ ".")

/-- POSIX `Path(s).parts`: a leading `/` is the root part. -/
def pathParts (s : String) : List String :=
  if s.data.head? = some '/' then "/" :: pathComponents s else pathComponents s

/-- `Path(*parts).name`: last collapsed component (empty for a bare root
or an empty part list). -/
def pathName (parts : List String) : String :=
  (parts.flatMap pathComponents).getLastD ""

/-- `str(Path(*parts))` (POSIX), collapsing empty segments and dots;
`Path()` of nothing is `"."`. -/
def pathJoin (parts : List String) : String :=
  match parts with
  | [] => "."
  | "/" :: rest => "/" ++ strJoin "/" (rest.flatMap pathComponents)
  | _ =>
    let comps := parts.flatMap pathComponents
    if comps.isEmpty then "." else strJoin "/" comps

/-- Index of the last `.` in a character list, if any. -/
def lastDotIdx (cs : List Char) : Option Nat :=
  (List.range cs.length).foldl
    (fun acc i => if cs.getD i ' ' = '.' then some i else acc) none

/-- `Path(s).suffix`: the extension of the final component — from the
last dot, provided it is neither the first nor the last character. -/
def pathSuffix (s : String) : String :=
  let cs := (pathName (pathParts s)).data
  match lastDotIdx cs with
  | some i => if 0 < i ∧ i < cs.length - 1 then ⟨cs.drop i⟩ else ""
  | none => ""

/-- The per-part cleanup `re.search(r"[^\.*](.*)[^\.*$]", part)` of
`create_file_name`: the leftmost match spans from the first character
outside `{., *}` to the last character outside `{., *, $}`; if that span
has fewer than two characters there is no match and the part is kept.
(`.` does not match newlines; the embedded inputs contain none.) -/
def regexSanitizePart (part : String) : String :=
  let cs := part.data.dropWhile (fun c => c = '.' || c = '*')
  let cs2 := (cs.reverse.dropWhile (fun c => c = '.' || c = '*' || c = '$')).reverse
  if 2 ≤ cs2.length then ⟨cs2⟩ else part

/-- `spotdl.utils.formatter.create_file_name`, with an explicit fuel
bounding the recursion depth (Python bounds it by the interpreter's
recursion limit; `none` means the recursion is still running after
`fuel` calls, i.e. the Python original would hit `RecursionError` when
this holds for every fuel).  Python's `template.endswith("\\\\")` and
`template.endswith(r"\\")` test the same two-backslash string.  All
template mutation (the three conditional appends and the replacement
loop) happens on the local `template`, so the recursive call receives
the already-substituted template, exactly as in the source. -/
def create_file_name : Nat → Song → String → String → Bool → Option String
  | 0, _, _, _, _ => none
  | fuel + 1, song, template, fileExtension, short =>
    let formats := formatKVs song fileExtension short
    let t1 :=
      if !(formats.any (fun kv => strContainsSub template kv.1)) then
        template ++ "/{artists} - {title}.{output-ext}"
      else template
    let t2 :=
      if strEndsWith t1 "/" || strEndsWith t1 "\\\\" then
        t1 ++ "/{artists} - {title}.{output-ext}"
      else t1
    let t3 :=
      if !(strEndsWith t2 ".{output-ext}") then t2 ++ ".{output-ext}" else t2
    let substituted :=
      (formats.map (fun kv => (kv.1, sanitize_string kv.2))).foldl
        (fun acc kv => pyReplace acc kv.1 kv.2) t3
    let sparts := (pathParts substituted).map regexSanitizePart
    if 255 < (pathName sparts).length then
      create_file_name fuel song substituted fileExtension true
    else
      some (pathJoin sparts)

/-- Python `/` on numbers: raises `ZeroDivisionError` on a zero
denominator (`none`), otherwise exact division (floats are modelled as
rationals). -/
def pyDiv (a b : ℚ) : Option ℚ :=
  if b = 0 then none else some (a / b)

/-- Python dict assignment `d[k] = v` on an insertion-ordered dict:
update in place if the key exists, else append. -/
def dictInsert (d : List (String × ℚ)) (k : String) (v : ℚ) :
    List (String × ℚ) :=
  if d.any (fun p => p.1 = k) then
    d.map (fun p => if p.1 = k then (k, v) else p)
  else
    d ++ [(k, v)]

/-- Python `d.get(k)` / `d[k]` lookup (first match; dict keys are unique). -/
def dictLookup (d : List (String × ℚ)) (k : String) : Option ℚ :=
  match d.find? (fun p => p.1 = k) with
  | some p => some p.2
  | none => none

/-- Python `{**a, **b}`: items of `a` in order, values updated and new
keys appended by `b`. -/
def pyDictMerge (a b : List (String × ℚ)) : List (String × ℚ) :=
  b.foldl (fun d p => dictInsert d p.1 p.2) a

/-- Python `max(d, key=lambda k: d[k])` over an insertion-ordered dict:
the first key attaining the maximal value (with that value); `none` on
an empty dict (where Python would raise). -/
def pyMaxByVal (d : List (String × ℚ)) : Option (String × ℚ) :=
  d.foldl
    (fun acc p =>
      match acc with
      | none => some p
      | some q => if q.2 < p.2 then some p else acc)
    none

/-- One step of Python's stable descending sort by value: insert before
the first strictly smaller element, after equal ones seen earlier. -/
def insertDescByVal (p : String × ℚ) : List (String × ℚ) → List (String × ℚ)
  | [] => [p]
  | q :: t => if q.2 ≤ p.2 then p :: q :: t else q :: insertDescByVal p t

/-- Python `sorted(items, key=lambda x: x[1], reverse=True)` (stable). -/
def pySortDescByVal (d : List (String × ℚ)) : List (String × ℚ) :=
  d.foldr insertDescByVal []

namespace YouTubeMusic

/-- A simplified YTMusic search result, as produced by
`YouTubeMusic.get_results`. -/
structure Result where
  name : String
  type : String
  link : String
  album : Option String
  duration : ℚ
  artists : String

/-- The raw YTMusic client result consumed by `get_results`
(`client.search` is the external collaborator): `videoId`, `title`,
`resultType`, `album.name` when present, the textual `duration`, and the
artist names later joined with `", "`. -/
structure RawResult where
  videoId : Option String
  title : String
  resultType : String
  albumName : Option String
  duration : Option String
  artistNames : List String

/-- `YouTubeMusic.get_results`: query the client and simplify, skipping
results without a `videoId`. -/
def get_results (client : String → String → List RawResult)
    (search_term : String) (filterName : String) : List Result :=
  (client search_term filterName).filterMap (fun r =>
    match r.videoId with
    | none => none
    | some vid =>
      some
        { name := r.title
          type := r.resultType
          link := "https://youtube.com/watch?v=" ++ vid
          album := r.albumName
          duration := parse_duration r.duration
          artists := strJoin ", " r.artistNames })

/-- The duration term of `YouTubeMusic.order_results` (and of the ISRC
check in `YouTubeMusic.search`):
`100 - ((result_duration - song_duration) ** 2) / song_duration * 100`;
`none` models the `ZeroDivisionError` raised when `song_duration = 0`. -/
def time_match (result_duration song_duration : ℚ) : Option ℚ :=
  (pyDiv ((result_duration - song_duration) ^ 2) song_duration).map
    (fun v => 100 - v * 100)

/-- The artist-match accumulator of `YouTubeMusic.order_results`: for
`"song"` results match each song artist against the result's artist
string; otherwise against the result name, falling back to the artist
string when that sum is zero. -/
def artistMatchNumber (mp : String → String → ℚ) (slug : String → String)
    (song_artists : List String) (r : Result) : ℚ :=
  if r.type = "song" then
    (song_artists.map (fun artist => mp (slug artist) (slug r.artists))).sum
  else
    let s1 := (song_artists.map (fun artist => mp (slug artist) (slug r.name))).sum
    if s1 = 0 then
      s1 + (song_artists.map (fun artist => mp (slug artist) (slug r.artists))).sum
    else s1

/-- The per-result body of the `YouTubeMusic.order_results` loop.
`some none` = the result is skipped by a gate (`continue`); `none` = the
iteration raises (`ZeroDivisionError`); `some (some v)` = the result is
scored `v`.  `mp` is the external `match_percentage` collaborator and
`slug` the external `slugify` collaborator. -/
def score_result (mp : String → String → ℚ) (slug : String → String)
    (song_name : String) (song_artists : List String)
    (song_album_name : String) (song_duration : ℤ) (r : Result) :
    Option (Option ℚ) :=
  let slug_song_title := slug (create_song_title song_name song_artists)
  let slug_song_name := slug song_name
  let slug_album_name := slug song_album_name
  let slug_result_name := slug r.name
  let sentence_words := splitOnChar ' ' (pyReplace slug_song_name "-" " ")
  let common_word :=
    sentence_words.any (fun word => word ≠ "" && strContainsSub slug_result_name word)
  if !common_word then some none
  else
    match pyDiv (artistMatchNumber mp slug song_artists r) (song_artists.length : ℚ) with
    | none => none
    | some artist_match =>
      if artist_match < 70 then some none
      else
        let name_match :=
          if r.type = "song" then mp (slug r.name) slug_song_name
          else mp (slug r.name) slug_song_title
        if name_match < 50 then some none
        else
          let album : Option String := if r.type = "song" then r.album else none
          let album_match : ℚ :=
            match album with
            | some a => if a ≠ "" then mp (slug a) slug_album_name else 0
            | none => 0
          match time_match r.duration (song_duration : ℚ) with
          | none => none
          | some tm =>
            let average_match : ℚ :=
              if r.type = "song" then
                match album with
                | none => (artist_match + name_match + tm) / 3
                | some a =>
                  if mp (pyLower a) (pyLower r.name) > 95 ∧
                      pyLower a ≠ pyLower song_album_name then
                    (artist_match + name_match + tm) / 3
                  else
                    (artist_match + album_match + name_match + tm) / 4
              else (artist_match + name_match + tm) / 3
            some (some average_match)

/-- One fold step of the `YouTubeMusic.order_results` loop: thread the
accumulated dict (or the pending exception) through one result. -/
def order_step (mp : String → String → ℚ) (slug : String → String)
    (song_name : String) (song_artists : List String)
    (song_album_name : String) (song_duration : ℤ)
    (acc : Option (List (String × ℚ))) (r : Result) :
    Option (List (String × ℚ)) :=
  match acc with
  | none => none
  | some d =>
    match score_result mp slug song_name song_artists song_album_name
        song_duration r with
    | none => none
    | some none => some d
    | some (some v) => some (dictInsert d r.link v)

/-- `YouTubeMusic.order_results`: fold the loop body over the results,
building the link-to-score dict; `none` models a raised exception. -/
def order_results (mp : String → String → ℚ) (slug : String → String)
    (results : List Result) (song_name : String) (song_artists : List String)
    (song_album_name : String) (song_duration : ℤ) :
    Option (List (String × ℚ)) :=
  results.foldl
    (order_step mp slug song_name song_artists song_album_name song_duration)
    (some [])

/-- `YouTubeMusic.search`: ISRC phase, then the songs-filtered phase
with its ≥ 80 short-circuit, then the videos-filtered phase merged via
`{**songs, **videos}` and resolved by a stable descending sort.  The
second component logs every `(search_term, filter)` request issued to
the client; `Except.error` models an exception escaping `search`. -/
def search (mp : String → String → ℚ) (slug : String → String)
    (client : String → String → List RawResult) (song : Song) :
    Except Unit (Option String) × List (String × String) :=
  let isrcPhase : Option (Except Unit (Option String)) × List (String × String) :=
    match song.isrc with
    | none => (none, [])
    | some isrc =>
      match get_results client isrc "songs" with
      | [r] =>
        let name_matched := pyLower r.name = pyLower song.name
        match time_match r.duration (song.duration : ℚ) with
        | none => (some (Except.error ()), [(isrc, "songs")])
        | some tm =>
          if name_matched ∧ tm > 90 then
            (some (Except.ok (some r.link)), [(isrc, "songs")])
          else (none, [(isrc, "songs")])
      | _ => (none, [(isrc, "songs")])
  match isrcPhase with
  | (some res, log) => (res, log)
  | (none, log0) =>
    let song_title := pyLower (create_song_title song.name song.artists)
    let log1 := log0 ++ [(song_title, "songs")]
    let song_results := get_results client song_title "songs"
    match order_results mp slug song_results song.name song.artists
        song.album_name song.duration with
    | none => (Except.error (), log1)
    | some songs =>
      let shortCircuit : Option String :=
        match pyMaxByVal songs with
        | some best => if 80 ≤ best.2 then some best.1 else none
        | none => none
      match shortCircuit with
      | some best => (Except.ok (some best), log1)
      | none =>
        let log2 := log1 ++ [(song_title, "videos")]
        let video_results := get_results client song_title "videos"
        match order_results mp slug video_results song.name song.artists
            song.album_name song.duration with
        | none => (Except.error (), log2)
        | some videos =>
          match pyDictMerge songs videos with
          | [] => (Except.ok none, log2)
          | merged0 =>
            match pySortDescByVal merged0 with
            | p :: _ => (Except.ok (some p.1), log2)
            | [] => (Except.ok none, log2)

end YouTubeMusic

namespace YouTube

/-- A PyTube search result as read by `YouTube.order_results`. -/
structure Result where
  video_id : Option String
  title : String
  length : ℚ
  watch_url : String

/-- The duration term of `YouTube.order_results`, exactly as written in
the source: `100 - (result.length - song_duration ** 2) / song_duration
* 100` (note: the *square of the song duration* is subtracted from the
raw length — not the squared difference). -/
def time_match (length song_duration : ℚ) : Option ℚ :=
  (pyDiv (length - song_duration ^ 2) song_duration).map
    (fun v => 100 - v * 100)

/-- The per-result body of the `YouTube.order_results` loop; same
conventions as `YouTubeMusic.score_result`. -/
def score_result (mp : String → String → ℚ) (slug : String → String)
    (song_name : String) (song_artists : List String) (song_duration : ℤ)
    (r : Result) : Option (Option ℚ) :=
  if r.video_id.isNone then some none
  else
    let slug_song_title := slug (create_song_title song_name song_artists)
    let slug_song_name := slug song_name
    let slug_result_name := slug r.title
    let sentence_words := splitOnChar ' ' (pyReplace slug_song_name "-" " ")
    let common_word :=
      sentence_words.any (fun word => word ≠ "" && strContainsSub slug_result_name word)
    if !common_word then some none
    else
      match pyDiv ((song_artists.map (fun artist => mp (slug artist) slug_result_name)).sum)
          (song_artists.length : ℚ) with
      | none => none
      | some artist_match =>
        if artist_match < 70 then some none
        else
          let name_match := mp slug_result_name slug_song_title
          if name_match < 50 then some none
          else
            match time_match r.length (song_duration : ℚ) with
            | none => none
            | some tm => some (some ((artist_match + name_match + tm) / 3))

/-- One fold step of the `YouTube.order_results` loop. -/
def order_step (mp : String → String → ℚ) (slug : String → String)
    (song_name : String) (song_artists : List String) (song_duration : ℤ)
    (acc : Option (List (String × ℚ))) (r : Result) :
    Option (List (String × ℚ)) :=
  match acc with
  | none => none
  | some d =>
    match score_result mp slug song_name song_artists song_duration r with
    | none => none
    | some none => some d
    | some (some v) => some (dictInsert d r.watch_url v)

/-- `YouTube.order_results`. -/
def order_results (mp : String → String → ℚ) (slug : String → String)
    (results : List Result) (song_name : String) (song_artists : List String)
    (song_duration : ℤ) : Option (List (String × ℚ)) :=
  results.foldl
    (order_step mp slug song_name song_artists song_duration)
    (some [])

end YouTube

/-- A Python exception value: class name, message, and the `from`
cause chain (outermost cause first rendered last). -/
structure PyExn where
  name : String
  msg : String
  causeChain : List (String × String)
deriving DecidableEq, Repr

/-- `raise New(...) from e`: the new exception with `e` chained. -/
def PyExn.wrap (newName newMsg : String) (e : PyExn) : PyExn :=
  { name := newName, msg := newMsg, causeChain := (e.name, e.msg) :: e.causeChain }

/-- Python `str(exception)`: the message. -/
def PyExn.str (e : PyExn) : String :=
  e.msg

/-- A rendering of `traceback.format_exc()`: the cause chain followed by
the active exception. -/
def PyExn.traceback (e : PyExn) : String :=
  strJoin "\n"
    ((e.causeChain.reverse.map (fun c => c.1 ++ ": " ++ c.2)) ++
      [e.name ++ ": " ++ e.msg])

/-- The externally observable events `Downloader._pool_download` emits
through the progress handler and its per-song tracker.  `errorNote`
carries what `SongTracker.notify_error` receives: the debug detail
(traceback) and the short error message. -/
inductive Notif where
  | log (msg : String)
  | debug (msg : String)
  | downloadComplete
  | conversionComplete
  | complete
  | errorNote (detail : String) (msg : String)
deriving DecidableEq, Repr

/-- Per-item behaviour of every external collaborator called by one run
of the pipeline.  Each field is the outcome of the single call the
pipeline makes: `Except.error e` means that call raised `e`. -/
structure ItemOps where
  search : Except PyExn (Option String)
  performDownloadR : Except PyExn (Option String)
  outputExists : Bool
  mkdirOutput : Except PyExn Unit
  renameTemp : Except PyExn Unit
  convert : Except PyExn (Bool × Option String)
  unlinkTemp : Except PyExn Unit
  writeErrorFile : Except PyExn Unit
  errorFilePath : String
  getLyrics : Except PyExn (Option String)
  embedMeta : Except PyExn Unit
  appendM3u : Except PyExn Unit
deriving DecidableEq, Repr

/-- The `Downloader` configuration consumed by the pipeline. -/
structure DlConfig where
  output : String
  output_format : String
  m3u_file : Option String
deriving DecidableEq, Repr

/-- `AudioProvider.download_single_song`: resolve a source (unless the
song carries a pre-resolved `download_url`), raising `LookupError` when
the search finds nothing, then fetch the audio. -/
def download_single_song (song : Song) (ops : ItemOps) :
    Except PyExn (Option String × String) :=
  match song.download_url with
  | none =>
    match ops.search with
    | Except.error e => Except.error e
    | Except.ok none =>
      Except.error (PyExn.mk "LookupError"
        ("No results found for song: " ++ song.name ++ " - " ++ song.artist) [])
    | Except.ok (some url) =>
      match ops.performDownloadR with
      | Except.error e => Except.error e
      | Except.ok tf => Except.ok (tf, url)
  | some url =>
    match ops.performDownloadR with
    | Except.error e => Except.error e
    | Except.ok tf => Except.ok (tf, url)

/-- The tail of the `Downloader._pool_download` body after a successful
conversion (`ns2` carries the notifications emitted so far): lyrics
lookup (a missing or empty lyrics result is only a debug message, not an
error), metadata embedding, the completion notification, and the
optional m3u append. -/
def pool_download_tail (hasTracker : Bool) (cfg : DlConfig) (song : Song)
    (ops : ItemOps) (ns2 : List Notif) : List Notif × Option PyExn :=
  match ops.getLyrics with
  | Except.error e => (ns2, some e)
  | Except.ok lyr =>
    let lyricsEmpty :=
      match lyr with
      | none => true
      | some s => s = ""
    let ns3 := ns2 ++
      if lyricsEmpty && hasTracker then
        [Notif.debug ("No lyrics found for " ++ song.name ++ " - " ++ song.artist)]
      else []
    match ops.embedMeta with
    | Except.error e => (ns3, some e)
    | Except.ok _ =>
      let ns4 := ns3 ++ if hasTracker then [Notif.complete] else []
      match cfg.m3u_file with
      | some _ =>
        match ops.appendM3u with
        | Except.error e => (ns4, some e)
        | Except.ok _ => (ns4, none)
      | none => (ns4, none)

/-- The body of `Downloader._pool_download` up to (but excluding) the
outer `except` clause: the notifications emitted so far, and the
exception that reached the pipeline boundary, if any.  The inner `try`
around `download_single_song` wraps any exception into
`DownloaderError(...) from exception`.  `create_file_name` runs with
fuel 1000 (CPython's recursion limit); exhausting it is Python's
`RecursionError`. -/
def pool_download_body (hasTracker : Bool) (cfg : DlConfig) (song : Song)
    (ops : ItemOps) : List Notif × Option PyExn :=
  match download_single_song song ops with
  | Except.error e =>
    ([], some (PyExn.wrap "DownloaderError"
      ("Unable to get audio stream for \"" ++ song.display_name ++ ": " ++
        song.url ++ "\"") e))
  | Except.ok (tfOpt, url) =>
    let ns0 :=
      if hasTracker then
        [Notif.log ("Downloaded \"" ++ song.display_name ++ "\": " ++ url)]
      else []
    match tfOpt with
    | none => (ns0, none)
    | some temp_file =>
      let ns1 := ns0 ++ if hasTracker then [Notif.downloadComplete] else []
      match create_file_name 1000 song cfg.output cfg.output_format false with
      | none =>
        (ns1, some (PyExn.mk "RecursionError" "maximum recursion depth exceeded" []))
      | some _output_file =>
        match (if ops.outputExists then Except.ok () else ops.mkdirOutput :
            Except PyExn Unit) with
        | Except.error e => (ns1, some e)
        | Except.ok _ =>
          let convRes : Except PyExn (Bool × Option String) :=
            if pathSuffix temp_file = ".m4a" ∧ cfg.output_format = "m4a" then
              match ops.renameTemp with
              | Except.error e => Except.error e
              | Except.ok _ => Except.ok (true, none)
            else
              match ops.convert with
              | Except.error e => Except.error e
              | Except.ok sc =>
                match ops.unlinkTemp with
                | Except.error e => Except.error e
                | Except.ok _ => Except.ok sc
          match convRes with
          | Except.error e => (ns1, some e)
          | Except.ok (success, error_message) =>
            if success = false &&
                (match error_message with
                 | some m => m ≠ ""
                 | none => false) then
              match ops.writeErrorFile with
              | Except.error e => (ns1, some e)
              | Except.ok _ =>
                (ns1, some (PyExn.mk "FFmpegError"
                  ("Failed to convert " ++ song.name ++
                    ", you can find error here: " ++ ops.errorFilePath) []))
            else
              pool_download_tail hasTracker cfg song ops
                (ns1 ++ if hasTracker then [Notif.conversionComplete] else [])

/-- `Downloader._pool_download` with its outer `except Exception`
boundary: with a tracker the exception is reported
(`notify_error(traceback, exception)`) and swallowed; without one it is
re-raised (`Except.error`). -/
def pool_download (hasTracker : Bool) (cfg : DlConfig) (song : Song)
    (ops : ItemOps) : Except PyExn (List Notif) :=
  match pool_download_body hasTracker cfg song ops with
  | (ns, none) => Except.ok ns
  | (ns, some e) =>
    if hasTracker then
      Except.ok (ns ++ [Notif.errorNote (PyExn.traceback e) (PyExn.str e)])
    else
      Except.error e

/-- `asyncio.gather` without `return_exceptions`: all results when every
task completes, otherwise the (first) raised exception aborts the batch
await. -/
def gatherExcept : List (Except PyExn (List Notif)) →
    Except PyExn (List (List Notif))
  | [] => Except.ok []
  | r :: rs =>
    match r with
    | Except.error e => Except.error e
    | Except.ok ns =>
      match gatherExcept rs with
      | Except.error e => Except.error e
      | Except.ok l => Except.ok (ns :: l)

/-- One submitted track: the song plus the behaviour of the external
calls its pipeline will make. -/
structure Item where
  song : Song
  ops : ItemOps
deriving DecidableEq, Repr

/-- `Downloader._download_asynchronously`: fan the per-item pipeline out
over the batch and gather. -/
def download_asynchronously (hasTracker : Bool) (cfg : DlConfig)
    (items : List Item) : Except PyExn (List (List Notif)) :=
  gatherExcept (items.map (fun it => pool_download hasTracker cfg it.song it.ops))

/-- The spec's `ItemOutcome` (§3): `notFound` is the variant the spec
reserves for a legitimately empty resolution. -/
inductive ItemOutcome where
  | success
  | notFound
  | failed
  | noOutcome
deriving DecidableEq, Repr

/-- Does the notification list report a failure? -/
def hasErrorNote (ns : List Notif) : Bool :=
  ns.any (fun n =>
    match n with
    | Notif.errorNote _ _ => true
    | _ => false)

/-- Does the notification list report completion? -/
def hasComplete (ns : List Notif) : Bool :=
  ns.any (fun n =>
    match n with
    | Notif.complete => true
    | _ => false)

/-- The `ItemOutcome` observable from one pipeline run's notifications. -/
def classifyNotifs (ns : List Notif) : ItemOutcome :=
  if hasErrorNote ns then ItemOutcome.failed
  else if hasComplete ns then ItemOutcome.success
  else ItemOutcome.noOutcome

/-- Terminal events of a run: a reported failure or a completion. -/
def terminalCount (ns : List Notif) : Nat :=
  (ns.filter (fun n =>
    match n with
    | Notif.errorNote _ _ => true
    | Notif.complete => true
    | _ => false)).length

/-- The short (user-channel) message of the first reported failure. -/
def shortErrorMsg (ns : List Notif) : Option String :=
  (ns.filterMap (fun n =>
    match n with
    | Notif.errorNote _ m => some m
    | _ => none)).head?

/-- The notifications of a tracked run (total: with a tracker the run
never propagates, see the theorems below). -/
def trackedNotifs (cfg : DlConfig) (it : Item) : List Notif :=
  match pool_download true cfg it.song it.ops with
  | Except.ok ns => ns
  | Except.error _ => []

/-! ### Concrete instances used by witnesses and counterexamples -/

/-- A constant fuzzy matcher (a legal `match_percentage`: always in
`[0, 100]`), used to instantiate closed statements. -/
def mpConst : String → String → ℚ := fun _ _ => 100

/-- The identity as a (degenerate but legal) slugifier for closed
statements whose inputs are already lowercase and hyphen-free. -/
def slugId : String → String := fun s => s

/-- A small everyday song. -/
def songA : Song :=
  { name := "test"
    artists := ["a"]
    artist := "a"
    album_name := "al"
    album_artist := "a"
    genres := []
    disc_number := 1
    disc_count := 1
    duration := 100
    year := 2020
    date := "2020"
    track_number := 1
    tracks_count := 1
    isrc := none
    song_id := "id1"
    display_name := "a - test"
    url := "https://open.spotify.com/track/id1"
    download_url := none }

/-- A 300-character title. -/
def longTitle : String := ⟨List.replicate 300 (Char.ofNat 97)⟩

/-- A song whose title alone exceeds 255 characters. -/
def songLong : Song :=
  { songA with
    name := longTitle
    artists := ["b"]
    artist := "b"
    display_name := "b - long" }

/-- The curly brace character (written via its code point so that format
keys are recognisable in proofs). -/
def curlyChar : Char := Char.ofNat 123

/-- The final path component `create_file_name` produces for `songLong`
in short mode: `"b - " ++ 300·'a' ++ ".mp3"`, 308 characters. -/
def shortNameLong : String := "b - " ++ longTitle ++ ".mp3"

/-- The suffix appended to the template by each recursion step on
`songLong`: the substituted `"/{artists} - {title}.{output-ext}"`. -/
def longTail : String := "/" ++ shortNameLong

/-- A zero-duration variant of `songA`. -/
def c2Result : YouTubeMusic.Result :=
  { name := "test"
    type := "song"
    link := "L"
    album := none
    duration := 0
    artists := "a" }

/-- A perfectly matching PyTube result whose length equals the song
duration (exposing the defective duration formula). -/
def ytPerfectResult : YouTube.Result :=
  { video_id := some "v"
    title := "test"
    length := 100
    watch_url := "U" }

/-- Collaborator behaviour for a fully successful pipeline run. -/
def okOps : ItemOps :=
  { search := Except.ok (some "https://youtube.com/watch?v=ok")
    performDownloadR := Except.ok (some "/tmp/ok.mp3")
    outputExists := false
    mkdirOutput := Except.ok ()
    renameTemp := Except.ok ()
    convert := Except.ok (true, none)
    unlinkTemp := Except.ok ()
    writeErrorFile := Except.ok ()
    errorFilePath := "/errors/ffmpeg_2026-10-12"
    getLyrics := Except.ok (some "la la")
    embedMeta := Except.ok ()
    appendM3u := Except.ok () }

/-- Collaborators where the search legitimately finds nothing. -/
def opsNotFound : ItemOps :=
  { okOps with search := Except.ok none }

/-- Collaborators where the search call raises a transport error. -/
def opsTransport : ItemOps :=
  { okOps with search := Except.error ⟨"HTTPError", "connection reset", []⟩ }

/-- Collaborators where the search call times out. -/
def opsTimeout : ItemOps :=
  { okOps with search := Except.error ⟨"ReadTimeout", "request timed out", []⟩ }

/-- The default `Downloader` configuration slice. -/
def cfg0 : DlConfig :=
  { output := ".", output_format := "mp3", m3u_file := none }

/-- A song for the resolver witnesses. -/
def song7 : Song :=
  { songA with
    name := "t"
    artists := ["x"]
    artist := "x"
    album_name := "" }

/-- A client whose songs-filtered search returns one perfect match. -/
def client7 : String → String → List YouTubeMusic.RawResult :=
  fun _ filterName =>
    if filterName = "songs" then
      [{ videoId := some "v7"
         title := "t"
         resultType := "song"
         albumName := none
         duration := some "1:40"
         artistNames := ["x"] }]
    else []

/-- A client whose songs phase scores below 80 and whose videos phase
returns the same link with a lower score (merge collision). -/
def client8 : String → String → List YouTubeMusic.RawResult :=
  fun _ filterName =>
    if filterName = "songs" then
      [{ videoId := some "v7"
         title := "t"
         resultType := "song"
         albumName := none
         duration := some "1:48"
         artistNames := ["x"] }]
    else
      [{ videoId := some "v7"
         title := "t"
         resultType := "video"
         albumName := none
         duration := some "1:49"
         artistNames := ["x"] }]

/-! ### Theorems -/

/-- C2.  The claim states that `order_results` short-circuits to a
minimum/zero score for a zero-duration track instead of dividing by
zero.  The source has no such guard: a candidate that passes the
common-word, artist and name gates reaches
`(delta ** 2) / song_duration * 100` and the division raises
`ZeroDivisionError` (here: the whole call evaluates to `none`).  This
evaluates `YouTubeMusic.order_results` at the failing input. -/
theorem c2_zero_duration_division_raises :
    YouTubeMusic.order_results mpConst slugId [c2Result] "test" ["a"] "" 0 = none := by
  norm_num +decide [YouTubeMusic.order_results, YouTubeMusic.order_step,
    YouTubeMusic.score_result, c2Result,
    mpConst, slugId, YouTubeMusic.time_match, pyDiv, YouTubeMusic.artistMatchNumber,
    create_song_title, splitOnChar, splitOnCharL, pyReplace, pyReplaceL, pyReplaceAux,
    strContainsSub, containsSub, dictInsert]

/-- C4.  The duration-match term at equal durations: in
`YouTubeMusic.order_results` it is exactly 100 for every nonzero
duration, but `YouTube.order_results` computes
`100 - (length - duration ** 2) / duration * 100`, which at
`length = duration = 200` yields 20000, not 100 — the claim fails for
the YouTube provider. -/
theorem c4_duration_match_term :
    (∀ d : ℚ, d ≠ 0 → YouTubeMusic.time_match d d = some 100) ∧
    YouTube.time_match 200 200 = some 20000 := by
  constructor
  · intro d hd
    simp [YouTubeMusic.time_match, pyDiv, hd]
  · norm_num [YouTube.time_match, pyDiv]

/-- C4 witness: the YTMusic duration term at duration 200. -/
theorem c4_duration_match_term_witness :
    YouTubeMusic.time_match 200 200 = some 100 :=
  c4_duration_match_term.1 200 (by norm_num)

/-- C9 counterexample: `"x:1:2:3"` has a piece (`"x"`) that is not an
integer, yet `parse_duration` returns 3723.0 rather than 0.0 — `zip`
truncation silently discards the malformed piece. -/
theorem c9_counterexample :
    pyInt "x" = none ∧
    "x" ∈ splitOnChar ':' "x:1:2:3" ∧
    parse_duration (some "x:1:2:3") = 3723 ∧
    (3723 : ℚ) ≠ 0 := by
  refine ⟨by decide, by decide, ?_, by norm_num⟩
  norm_num +decide [parse_duration, splitOnChar, splitOnCharL, sumWeighted]

/-- Zipping with the three weights only ever consumes the first three
pieces. -/
lemma zip_weights_take (ps : List String) :
    List.zip [(1 : ℤ), 60, 3600] ps = List.zip [(1 : ℤ), 60, 3600] (ps.take 3) := by
  match ps with
  | [] => rfl
  | [_] => rfl
  | [_, _] => rfl
  | _ :: _ :: _ :: _ => rfl

/-- A failing `int()` inside the summed generator fails the sum. -/
lemma sumWeighted_eq_none (l : List (ℤ × String))
    (h : ∃ mt ∈ l, pyInt mt.2 = none) : sumWeighted l = none := by
  induction l with
  | nil => simp at h
  | cons mt rest ih =>
    rcases h with ⟨x, hx, hxnone⟩
    rcases List.mem_cons.mp hx with rfl | hx2
    · simp [sumWeighted, hxnone]
    · cases hp : pyInt mt.2 with
      | none => simp [sumWeighted, hp]
      | some n => simp [sumWeighted, hp, ih ⟨x, hx2, hxnone⟩]

/-- When every `int()` succeeds, the sum is the weighted sum. -/
lemma sumWeighted_eq_some (l : List (ℤ × String))
    (h : ∀ mt ∈ l, (pyInt mt.2).isSome) :
    sumWeighted l = some ((l.map (fun mt => mt.1 * (pyInt mt.2).getD 0)).sum) := by
  induction l with
  | nil => simp [sumWeighted]
  | cons mt rest ih =>
    have hmt := h mt (List.mem_cons_self mt rest)
    cases hp : pyInt mt.2 with
    | none => rw [hp] at hmt; simp at hmt
    | some n =>
      have := ih (fun x hx => h x (List.mem_cons_of_mem mt hx))
      simp [sumWeighted, hp, this]

/-- Each of the first three pieces is paired with a weight. -/
lemma mem_take3_zip (ps : List String) (p : String) (hp : p ∈ ps.take 3) :
    ∃ m, (m, p) ∈ List.zip [(1 : ℤ), 60, 3600] ps := by
  rw [zip_weights_take]
  match ps with
  | [] => simp at hp
  | [a] =>
    have ha : p = a := by simpa using hp
    subst ha
    exact ⟨1, by simp [List.zip]⟩
  | [a, b] =>
    have ha : p = a ∨ p = b := by simpa using hp
    rcases ha with rfl | rfl
    · exact ⟨1, by simp [List.zip]⟩
    · exact ⟨60, by simp [List.zip]⟩
  | a :: b :: c :: rest =>
    have ha : p = a ∨ p = b ∨ p = c := by simpa using hp
    rcases ha with rfl | rfl | rfl
    · exact ⟨1, by simp [List.zip]⟩
    · exact ⟨60, by simp [List.zip]⟩
    · exact ⟨3600, by simp [List.zip]⟩

/-- Every zipped piece is among the first three pieces. -/
lemma zip_mem_take3 (ps : List String) (mt : ℤ × String)
    (hmt : mt ∈ List.zip [(1 : ℤ), 60, 3600] ps) : mt.2 ∈ ps.take 3 := by
  rw [zip_weights_take] at hmt
  match ps with
  | [] => simp [List.zip] at hmt
  | [a] =>
    have ha : mt = (1, a) := by simpa [List.zip] using hmt
    simp [ha]
  | [a, b] =>
    have ha : mt = (1, a) ∨ mt = (60, b) := by simpa [List.zip] using hmt
    rcases ha with rfl | rfl <;> simp
  | a :: b :: c :: rest =>
    have ha : mt = (1, a) ∨ mt = (60, b) ∨ mt = (3600, c) := by
      simpa [List.zip] using hmt
    rcases ha with rfl | rfl | rfl <;> simp

/-- C9, amended.  `parse_duration` is total: `None` and any string whose
*last up-to-three* colon-separated pieces are not all integers yield
exactly `0.0`; when those pieces all parse, the result is their weighted
sum (weights 1, 60, 3600 from the right).  Pieces beyond the last three
are ignored entirely by the `zip` truncation, malformed or not (see the
counterexample). -/
theorem c9_parse_duration_amended :
    parse_duration none = 0 ∧
    (∀ s : String,
      (∃ p ∈ ((splitOnChar ':' s).reverse.take 3), pyInt p = none) →
      parse_duration (some s) = 0) ∧
    (∀ s : String,
      (∀ p ∈ ((splitOnChar ':' s).reverse.take 3), (pyInt p).isSome) →
      parse_duration (some s) =
        ((((List.zip [(1 : ℤ), 60, 3600] ((splitOnChar ':' s).reverse)).map
            (fun mt => mt.1 * (pyInt mt.2).getD 0)).sum : ℤ) : ℚ)) := by
  refine ⟨rfl, ?_, ?_⟩
  · rintro s ⟨p, hp, hnone⟩
    have h : sumWeighted (List.zip [(1 : ℤ), 60, 3600] ((splitOnChar ':' s).reverse)) = none := by
      apply sumWeighted_eq_none
      obtain ⟨m, hm⟩ := mem_take3_zip _ p hp
      exact ⟨(m, p), hm, hnone⟩
    simp [parse_duration, h]
  · intro s hall
    have h := sumWeighted_eq_some
      (List.zip [(1 : ℤ), 60, 3600] ((splitOnChar ':' s).reverse))
      (fun mt hmt => hall mt.2 (zip_mem_take3 _ mt hmt))
    simp [parse_duration, h]

/-- C9 witness: `"a:b"` has a malformed last piece, so the amended
theorem yields `0.0`. -/
theorem c9_parse_duration_amended_witness :
    parse_duration (some "a:b") = 0 :=
  c9_parse_duration_amended.2.1 "a:b" ⟨"b", by decide, by decide⟩

/-- A YTMusic result whose slugified name shares no word with the
slugified song name is skipped by the common-word gate. -/
lemma ytm_score_skip (mp : String → String → ℚ) (slug : String → String)
    (sn : String) (sa : List String) (al : String) (sd : ℤ)
    (r : YouTubeMusic.Result)
    (h : ∀ word ∈ splitOnChar ' ' (pyReplace (slug sn) "-" " "),
        word ≠ "" → strContainsSub (slug r.name) word = false) :
    YouTubeMusic.score_result mp slug sn sa al sd r = some none := by
  have hcw : (splitOnChar ' ' (pyReplace (slug sn) "-" " ")).any
      (fun word => word ≠ "" && strContainsSub (slug r.name) word) = false := by
    rw [List.any_eq_false]
    intro w hw
    by_cases hval : w = ""
    · simp [hval]
    · simp [hval, h w hw hval]
  unfold YouTubeMusic.score_result
  simp only [hcw, Bool.not_false, if_true]

/-- Likewise for a PyTube result (the `video_id`-less case is skipped
even earlier). -/
lemma yt_score_skip (mp : String → String → ℚ) (slug : String → String)
    (sn : String) (sa : List String) (sd : ℤ) (r : YouTube.Result)
    (h : ∀ word ∈ splitOnChar ' ' (pyReplace (slug sn) "-" " "),
        word ≠ "" → strContainsSub (slug r.title) word = false) :
    YouTube.score_result mp slug sn sa sd r = some none := by
  unfold YouTube.score_result
  cases hv : r.video_id with
  | none => simp [hv]
  | some v =>
    have hcw : (splitOnChar ' ' (pyReplace (slug sn) "-" " ")).any
        (fun word => word ≠ "" && strContainsSub (slug r.title) word) = false := by
      rw [List.any_eq_false]
      intro w hw
      by_cases hval : w = ""
      · simp [hval]
      · simp [hval, h w hw hval]
    simp only [hv, Option.isNone_some, Bool.false_eq_true, if_false, hcw,
      Bool.not_false, if_true]

/-- A skipped result leaves the fold state unchanged. -/
lemma ytm_order_step_skip (mp : String → String → ℚ) (slug : String → String)
    (sn : String) (sa : List String) (al : String) (sd : ℤ)
    (r : YouTubeMusic.Result)
    (hskip : YouTubeMusic.score_result mp slug sn sa al sd r = some none)
    (acc : Option (List (String × ℚ))) :
    YouTubeMusic.order_step mp slug sn sa al sd acc r = acc := by
  cases acc <;> simp [YouTubeMusic.order_step, hskip]

/-- A skipped result leaves the fold state unchanged (YouTube). -/
lemma yt_order_step_skip (mp : String → String → ℚ) (slug : String → String)
    (sn : String) (sa : List String) (sd : ℤ) (r : YouTube.Result)
    (hskip : YouTube.score_result mp slug sn sa sd r = some none)
    (acc : Option (List (String × ℚ))) :
    YouTube.order_step mp slug sn sa sd acc r = acc := by
  cases acc <;> simp [YouTube.order_step, hskip]

/-- C6.  In both providers, a candidate whose slugified title contains
none of the nonempty words of the slugified track title as a substring
is excluded from `order_results` entirely: the ranked output over any
surrounding candidate list is as if the candidate were absent,
regardless of its other fields. -/
theorem c6_common_word_gate (mp : String → String → ℚ)
    (slug : String → String) (sn : String) (sa : List String) (al : String)
    (sd : ℤ) (r : YouTubeMusic.Result) (r2 : YouTube.Result)
    (l₁ l₂ : List YouTubeMusic.Result) (m₁ m₂ : List YouTube.Result)
    (h1 : ∀ word ∈ splitOnChar ' ' (pyReplace (slug sn) "-" " "),
        word ≠ "" → strContainsSub (slug r.name) word = false)
    (h2 : ∀ word ∈ splitOnChar ' ' (pyReplace (slug sn) "-" " "),
        word ≠ "" → strContainsSub (slug r2.title) word = false) :
    YouTubeMusic.order_results mp slug (l₁ ++ r :: l₂) sn sa al sd =
      YouTubeMusic.order_results mp slug (l₁ ++ l₂) sn sa al sd ∧
    YouTube.order_results mp slug (m₁ ++ r2 :: m₂) sn sa sd =
      YouTube.order_results mp slug (m₁ ++ m₂) sn sa sd := by
  constructor
  · unfold YouTubeMusic.order_results
    rw [List.foldl_append, List.foldl_append, List.foldl_cons,
      ytm_order_step_skip mp slug sn sa al sd r (ytm_score_skip mp slug sn sa al sd r h1)]
  · unfold YouTube.order_results
    rw [List.foldl_append, List.foldl_append, List.foldl_cons,
      yt_order_step_skip mp slug sn sa sd r2 (yt_score_skip mp slug sn sa sd r2 h2)]

/-- C6 witness: a candidate titled `"zzz"` for the track `"test"` is
dropped from the ranked output of both providers. -/
theorem c6_common_word_gate_witness :
    YouTubeMusic.order_results mpConst slugId
        [{ c2Result with name := "zzz" }, c2Result] "test" ["a"] "" 100 =
      YouTubeMusic.order_results mpConst slugId [c2Result] "test" ["a"] "" 100 ∧
    YouTube.order_results mpConst slugId
        [{ ytPerfectResult with title := "zzz" }, ytPerfectResult] "test" ["a"] 100 =
      YouTube.order_results mpConst slugId [ytPerfectResult] "test" ["a"] 100 :=
  c6_common_word_gate mpConst slugId "test" ["a"] "" 100
    { c2Result with name := "zzz" } { ytPerfectResult with title := "zzz" }
    [] [c2Result] [] [ytPerfectResult] (by decide) (by decide)

/-- Unfolding a successful Python division. -/
lemma pyDiv_some (a b q : ℚ) (h : pyDiv a b = some q) : b ≠ 0 ∧ q = a / b := by
  unfold pyDiv at h
  split at h
  · simp at h
  · exact ⟨by assumption, (Option.some.injEq _ _ ▸ h).symm⟩

/-- A list of values in `[0, 100]` sums into `[0, 100·length]`. -/
lemma list_sum_bounds (l : List ℚ) (h : ∀ x ∈ l, 0 ≤ x ∧ x ≤ 100) :
    0 ≤ l.sum ∧ l.sum ≤ 100 * l.length := by
  induction l with
  | nil => simp
  | cons x xs ih =>
    have hx := h x (List.mem_cons_self x xs)
    have hxs := ih (fun y hy => h y (List.mem_cons_of_mem x hy))
    simp only [List.sum_cons, List.length_cons]
    push_cast
    constructor <;> linarith [hx.1, hx.2, hxs.1, hxs.2]

/-- The artist-match accumulator stays within `[0, 100·#artists]` for a
`match_percentage` with range `[0, 100]`. -/
lemma artistMatchNumber_bounds (mp : String → String → ℚ)
    (slug : String → String) (sa : List String) (r : YouTubeMusic.Result)
    (hmp : ∀ a b, 0 ≤ mp a b ∧ mp a b ≤ 100) :
    0 ≤ YouTubeMusic.artistMatchNumber mp slug sa r ∧
      YouTubeMusic.artistMatchNumber mp slug sa r ≤ 100 * sa.length := by
  have hb : ∀ (t : String),
      0 ≤ (sa.map (fun artist => mp (slug artist) t)).sum ∧
        (sa.map (fun artist => mp (slug artist) t)).sum ≤ 100 * sa.length := by
    intro t
    have := list_sum_bounds (sa.map (fun artist => mp (slug artist) t))
      (by
        intro x hx
        obtain ⟨a, _, rfl⟩ := List.mem_map.mp hx
        exact hmp _ _)
    simpa using this
  simp only [YouTubeMusic.artistMatchNumber]
  split
  · exact hb (slug r.artists)
  · split
    · rename_i hzero
      rw [hzero, zero_add]
      exact hb (slug r.artists)
    · exact hb (slug r.name)

/-- The YTMusic duration term never exceeds 100 for a positive track
duration. -/
lemma ytm_time_match_le (rd sd tm : ℚ) (hd : 0 < sd)
    (h : YouTubeMusic.time_match rd sd = some tm) : tm ≤ 100 := by
  unfold YouTubeMusic.time_match at h
  cases hq : pyDiv ((rd - sd) ^ 2) sd with
  | none => rw [hq] at h; simp at h
  | some q =>
    rw [hq] at h
    obtain ⟨-, rfl⟩ := pyDiv_some _ _ _ hq
    simp at h
    have hq0 : 0 ≤ (rd - sd) ^ 2 / sd := div_nonneg (sq_nonneg _) hd.le
    linarith [h, hq0]

/-- Every score produced by one `YouTubeMusic` loop iteration is at most
100 (positive duration, `match_percentage` within `[0, 100]`). -/
lemma ytm_score_le (mp : String → String → ℚ) (slug : String → String)
    (sn : String) (sa : List String) (al : String) (sd : ℤ)
    (hmp : ∀ a b, 0 ≤ mp a b ∧ mp a b ≤ 100) (hd : 0 < sd)
    (r : YouTubeMusic.Result) (v : ℚ)
    (hv : YouTubeMusic.score_result mp slug sn sa al sd r = some (some v)) :
    v ≤ 100 := by
  simp only [YouTubeMusic.score_result] at hv
  split at hv
  · simp at hv
  · split at hv
    · simp at hv
    · rename_i artist_match hdiv
      obtain ⟨hlen, ham⟩ := pyDiv_some _ _ _ hdiv
      have hlenpos : (0 : ℚ) < (sa.length : ℚ) := by
        have hz : sa.length ≠ 0 := by
          intro h0
          exact hlen (by exact_mod_cast h0)
        exact_mod_cast Nat.pos_of_ne_zero hz
      have hamle : artist_match ≤ 100 := by
        rw [ham, div_le_iff₀ hlenpos]
        simpa [mul_comm] using (artistMatchNumber_bounds mp slug sa r hmp).2
      split at hv
      · simp at hv
      · by_cases htype : r.type = "song"
        · simp only [htype, reduceIte] at hv
          have hnm : mp (slug r.name) (slug sn) ≤ 100 := (hmp _ _).2
          split at hv
          · simp at hv
          · split at hv
            · simp at hv
            · rename_i tm htm
              have htmle : tm ≤ 100 :=
                ytm_time_match_le r.duration (sd : ℚ) tm (by exact_mod_cast hd) htm
              simp only [Option.some.injEq] at hv
              split at hv
              · subst hv
                linarith
              · rename_i a halb
                have habx : (if a ≠ "" then mp (slug a) (slug al) else 0) ≤ 100 := by
                  split
                  · exact (hmp _ _).2
                  · norm_num
                split at hv
                · subst hv
                  linarith
                · subst hv
                  simp only [halb]
                  linarith [habx]
        · simp only [htype, reduceIte] at hv
          have hnm : mp (slug r.name) (slug (create_song_title sn sa)) ≤ 100 :=
            (hmp _ _).2
          split at hv
          · simp at hv
          · split at hv
            · simp at hv
            · rename_i tm htm
              have htmle : tm ≤ 100 :=
                ytm_time_match_le r.duration (sd : ℚ) tm (by exact_mod_cast hd) htm
              simp only [Option.some.injEq] at hv
              subst hv
              linarith

/-- An exception sticks through the rest of the fold. -/
lemma ytm_foldl_none (mp : String → String → ℚ) (slug : String → String)
    (sn : String) (sa : List String) (al : String) (sd : ℤ)
    (results : List YouTubeMusic.Result) :
    results.foldl (YouTubeMusic.order_step mp slug sn sa al sd) none = none := by
  induction results with
  | nil => rfl
  | cons r rs ih => simpa [YouTubeMusic.order_step] using ih

/-- `dictInsert` preserves an upper bound on all values. -/
lemma dictInsert_bound (d : List (String × ℚ)) (k : String) (v : ℚ)
    (hd : ∀ p ∈ d, p.2 ≤ 100) (hv : v ≤ 100) :
    ∀ p ∈ dictInsert d k v, p.2 ≤ 100 := by
  intro p hp
  unfold dictInsert at hp
  split at hp
  · obtain ⟨q, hq, hpq⟩ := List.mem_map.mp hp
    by_cases hqk : q.1 = k
    · simp only [hqk, if_true] at hpq
      rw [← hpq]
      exact hv
    · simp only [hqk, if_false] at hpq
      rw [← hpq]
      exact hd q hq
  · rcases List.mem_append.mp hp with h | h
    · exact hd p h
    · simp only [List.mem_singleton] at h
      rw [h]
      exact hv

/-- The `YouTubeMusic.order_results` fold keeps every recorded score at
most 100. -/
lemma ytm_order_bound (mp : String → String → ℚ) (slug : String → String)
    (sn : String) (sa : List String) (al : String) (sd : ℤ)
    (hmp : ∀ a b, 0 ≤ mp a b ∧ mp a b ≤ 100) (hd : 0 < sd) :
    ∀ (results : List YouTubeMusic.Result) (acc d : List (String × ℚ)),
      (∀ p ∈ acc, p.2 ≤ 100) →
      results.foldl (YouTubeMusic.order_step mp slug sn sa al sd) (some acc) = some d →
      ∀ p ∈ d, p.2 ≤ 100 := by
  intro results
  induction results with
  | nil =>
    intro acc d hacc hfold
    simp only [List.foldl_nil, Option.some.injEq] at hfold
    rw [← hfold]
    exact hacc
  | cons r rs ih =>
    intro acc d hacc hfold
    rw [List.foldl_cons] at hfold
    cases hs : YouTubeMusic.score_result mp slug sn sa al sd r with
    | none =>
      rw [show YouTubeMusic.order_step mp slug sn sa al sd (some acc) r = none by
        simp [YouTubeMusic.order_step, hs]] at hfold
      rw [ytm_foldl_none] at hfold
      simp at hfold
    | some sv =>
      cases sv with
      | none =>
        rw [ytm_order_step_skip mp slug sn sa al sd r hs (some acc)] at hfold
        exact ih acc d hacc hfold
      | some v =>
        rw [show YouTubeMusic.order_step mp slug sn sa al sd (some acc) r =
            some (dictInsert acc r.link v) by simp [YouTubeMusic.order_step, hs]] at hfold
        exact ih (dictInsert acc r.link v) d
          (dictInsert_bound acc r.link v hacc
            (ytm_score_le mp slug sn sa al sd hmp hd r v hs)) hfold

/-- C5.  In `YouTubeMusic.order_results` every ranked score is at most
100 whenever the track duration is positive and the fuzzy matcher stays
within `[0, 100]`; but `YouTube.order_results` — with the same bounded
matcher — assigns the perfectly matching candidate of a 100-second track
the score 3400 (> 100), because of its defective duration formula. -/
theorem c5_score_upper_bound :
    (∀ (mp : String → String → ℚ) (slug : String → String) (sn : String)
        (sa : List String) (al : String) (sd : ℤ)
        (results : List YouTubeMusic.Result) (d : List (String × ℚ)),
      (∀ a b, 0 ≤ mp a b ∧ mp a b ≤ 100) → 0 < sd →
      YouTubeMusic.order_results mp slug results sn sa al sd = some d →
      ∀ p ∈ d, p.2 ≤ 100) ∧
    (YouTube.order_results mpConst slugId [ytPerfectResult] "test" ["a"] 100 =
        some [("U", 3400)] ∧ ¬ ((3400 : ℚ) ≤ 100)) := by
  constructor
  · intro mp slug sn sa al sd results d hmp hd hres
    exact ytm_order_bound mp slug sn sa al sd hmp hd results [] d (by simp) hres
  · constructor
    · norm_num +decide [YouTube.order_results, YouTube.order_step,
        YouTube.score_result, ytPerfectResult, mpConst, slugId,
        YouTube.time_match, pyDiv, create_song_title, splitOnChar, splitOnCharL,
        pyReplace, pyReplaceL, pyReplaceAux, strContainsSub, containsSub, dictInsert]
    · norm_num

/-- C5 witness: the bound applied to a one-candidate ranking of
`YouTubeMusic.order_results`. -/
theorem c5_score_upper_bound_witness :
    ∀ p ∈ [("L", (100 : ℚ))], p.2 ≤ 100 :=
  c5_score_upper_bound.1 mpConst slugId "test" ["a"] "" 100
    [{ c2Result with duration := 100 }] [("L", 100)]
    (fun _ _ => by norm_num [mpConst]) (by norm_num)
    (by
      norm_num +decide [YouTubeMusic.order_results, YouTubeMusic.order_step,
        YouTubeMusic.score_result, c2Result, mpConst, slugId,
        YouTubeMusic.time_match, pyDiv, YouTubeMusic.artistMatchNumber,
        create_song_title, splitOnChar, splitOnCharL, pyReplace, pyReplaceL,
        pyReplaceAux, strContainsSub, containsSub, dictInsert])

/-- C7.  When the song has no ISRC (so the identifier phase cannot
return early) and the songs-filtered primary phase produces a ranked map
whose first maximal entry scores at least 80, `YouTubeMusic.search`
returns that reference immediately, and the request log shows exactly
one search — the songs-filtered one; the videos-filtered secondary
search is never issued. -/
theorem c7_primary_short_circuit (mp : String → String → ℚ)
    (slug : String → String)
    (client : String → String → List YouTubeMusic.RawResult) (song : Song)
    (d : List (String × ℚ)) (link : String) (score : ℚ)
    (hisrc : song.isrc = none)
    (hsongs : YouTubeMusic.order_results mp slug
        (YouTubeMusic.get_results client
          (pyLower (create_song_title song.name song.artists)) "songs")
        song.name song.artists song.album_name song.duration = some d)
    (hmax : pyMaxByVal d = some (link, score))
    (hscore : 80 ≤ score) :
    YouTubeMusic.search mp slug client song =
      (Except.ok (some link),
        [(pyLower (create_song_title song.name song.artists), "songs")]) := by
  unfold YouTubeMusic.search
  rw [hisrc]
  simp only [hsongs, hmax, if_pos hscore, List.nil_append]

/-- C7 witness: a client whose primary phase has a perfect match; the
search short-circuits after one songs-filtered request. -/
theorem c7_primary_short_circuit_witness :
    YouTubeMusic.search mpConst slugId client7 song7 =
      (Except.ok (some "https://youtube.com/watch?v=v7"),
        [(pyLower (create_song_title song7.name song7.artists), "songs")]) :=
  c7_primary_short_circuit mpConst slugId client7 song7
    [("https://youtube.com/watch?v=v7", 100)] "https://youtube.com/watch?v=v7" 100
    (by decide)
    (by
      have hget : YouTubeMusic.get_results client7
          (pyLower (create_song_title song7.name song7.artists)) "songs" =
          [{ name := "t", type := "song", link := "https://youtube.com/watch?v=v7",
             album := none, duration := 100, artists := "x" }] := by
        have hpd : parse_duration (some "1:40") = 100 := by
          norm_num +decide [parse_duration, splitOnChar, splitOnCharL, sumWeighted,
            pyInt, pyIntDigits, pyStrip]
        simp only [YouTubeMusic.get_results, client7, if_pos]
        norm_num +decide [hpd, strJoin, List.filterMap_cons, List.filterMap_nil]
      rw [hget]
      norm_num +decide [YouTubeMusic.order_results, YouTubeMusic.order_step,
        YouTubeMusic.score_result, song7, songA, mpConst, slugId,
        YouTubeMusic.time_match, pyDiv, YouTubeMusic.artistMatchNumber,
        create_song_title, pyLower, strJoin, splitOnChar, splitOnCharL,
        pyReplace, pyReplaceL, pyReplaceAux, strContainsSub, containsSub, dictInsert])
    (by norm_num [pyMaxByVal])
    (by norm_num)

/-- Looking up the freshly assigned key finds the new value. -/
lemma dictLookup_insert_self (d : List (String × ℚ)) (k : String) (v : ℚ) :
    dictLookup (dictInsert d k v) k = some v := by
  unfold dictInsert
  split
  · rename_i hany
    unfold dictLookup
    induction d with
    | nil => simp at hany
    | cons p t ih =>
      simp only [List.map_cons]
      by_cases hp : p.1 = k
      · simp [List.find?_cons, hp]
      · simp only [hp, if_false]
        rw [List.find?_cons_of_neg _ (by simp [hp])]
        apply ih
        simpa [hp] using hany
  · unfold dictLookup
    rename_i hany
    have hnone : d.find? (fun p => p.1 = k) = none := by
      rw [List.find?_eq_none]
      intro p hp
      by_contra hc
      exact hany (List.any_eq_true.mpr ⟨p, hp, by simpa using hc⟩)
    rw [List.find?_append, hnone]
    simp [List.find?_cons]

/-- Replacing the value at key `k` is invisible to `find?` for a
different key. -/
lemma find?_replace_ne (k k2 : String) (v : ℚ) (h : k2 ≠ k) :
    ∀ (t : List (String × ℚ)),
      List.find? (fun p => p.1 = k2) (t.map (fun p => if p.1 = k then (k, v) else p)) =
        List.find? (fun p => p.1 = k2) t := by
  intro t
  induction t with
  | nil => rfl
  | cons p t ih =>
    by_cases hp : p.1 = k
    · rw [List.map_cons, if_pos hp,
        List.find?_cons_of_neg _ (by simp [Ne.symm h]),
        List.find?_cons_of_neg _ (by simp [hp, Ne.symm h])]
      exact ih
    · rw [List.map_cons, if_neg hp]
      by_cases hpk2 : p.1 = k2
      · rw [List.find?_cons_of_pos _ (by simpa using hpk2),
          List.find?_cons_of_pos _ (by simpa using hpk2)]
      · rw [List.find?_cons_of_neg _ (by simpa using hpk2),
          List.find?_cons_of_neg _ (by simpa using hpk2)]
        exact ih

/-- Assigning a different key does not change a lookup. -/
lemma dictLookup_insert_ne (d : List (String × ℚ)) (k k2 : String) (v : ℚ)
    (h : k2 ≠ k) : dictLookup (dictInsert d k v) k2 = dictLookup d k2 := by
  unfold dictInsert
  split
  · unfold dictLookup
    rw [find?_replace_ne k k2 v h d]
  · unfold dictLookup
    rw [List.find?_append]
    cases hf : d.find? (fun p => p.1 = k2) with
    | some p => simp
    | none =>
      simp only [Option.orElse_none, Option.none_orElse]
      rw [List.find?_cons_of_neg _ (by simp [Ne.symm h])]
      simp [List.find?_nil]

/-- One step of the `{**a, **b}` fold. -/
lemma pyDictMerge_cons (songs : List (String × ℚ)) (p : String × ℚ)
    (t : List (String × ℚ)) :
    pyDictMerge songs (p :: t) = pyDictMerge (dictInsert songs p.1 p.2) t := rfl

/-- One step of the stable descending sort. -/
lemma pySortDescByVal_cons (a : String × ℚ) (t : List (String × ℚ)) :
    pySortDescByVal (a :: t) = insertDescByVal a (pySortDescByVal t) := rfl

/-- Merging dicts whose right side never binds `k` leaves the lookup of
`k` unchanged. -/
lemma pyDictMerge_lookup_absent :
    ∀ (videos songs : List (String × ℚ)) (k : String),
      (∀ p ∈ videos, p.1 ≠ k) →
      dictLookup (pyDictMerge songs videos) k = dictLookup songs k := by
  intro videos
  induction videos with
  | nil => intro songs k _; rfl
  | cons p t ih =>
    intro songs k h
    rw [pyDictMerge_cons,
      ih (dictInsert songs p.1 p.2) k (fun q hq => h q (List.mem_cons_of_mem p hq))]
    exact dictLookup_insert_ne songs p.1 k p.2
      (fun he => h p (List.mem_cons_self p t) he.symm)

/-- Last write wins: a key bound on the right side of `{**songs,
**videos}` looks up to the right-side value. -/
lemma pyDictMerge_lookup_right :
    ∀ (videos songs : List (String × ℚ)) (k : String) (v : ℚ),
      (videos.map Prod.fst).Nodup → dictLookup videos k = some v →
      dictLookup (pyDictMerge songs videos) k = some v := by
  intro videos
  induction videos with
  | nil => intro songs k v _ hl; simp [dictLookup] at hl
  | cons p t ih =>
    intro songs k v hnd hl
    simp only [List.map_cons, List.nodup_cons] at hnd
    rw [pyDictMerge_cons]
    by_cases hp : p.1 = k
    · have hv : v = p.2 := by
        unfold dictLookup at hl
        rw [List.find?_cons_of_pos _ (by simpa using hp)] at hl
        simpa using hl.symm
      have habs : ∀ q ∈ t, q.1 ≠ k := by
        intro q hq he
        exact hnd.1 (hp ▸ he ▸ List.mem_map_of_mem Prod.fst hq)
      rw [pyDictMerge_lookup_absent t (dictInsert songs p.1 p.2) k habs, ← hp, hv]
      exact dictLookup_insert_self songs p.1 p.2
    · have hl2 : dictLookup t k = some v := by
        unfold dictLookup at hl ⊢
        rwa [List.find?_cons_of_neg _ (by simpa using hp)] at hl
      exact ih (dictInsert songs p.1 p.2) k v hnd.2 hl2

/-- Membership through one stable-descending insertion. -/
lemma insertDescByVal_mem (p q : String × ℚ) :
    ∀ (l : List (String × ℚ)), q ∈ insertDescByVal p l ↔ q = p ∨ q ∈ l := by
  intro l
  induction l with
  | nil => simp [insertDescByVal]
  | cons b t ih =>
    unfold insertDescByVal
    split
    · simp [List.mem_cons]
    · simp only [List.mem_cons, ih]
      tauto

/-- The stable descending sort is a (multiset) permutation at the level
of membership. -/
lemma pySortDescByVal_mem (d : List (String × ℚ)) (q : String × ℚ) :
    q ∈ pySortDescByVal d ↔ q ∈ d := by
  induction d with
  | nil => simp [pySortDescByVal]
  | cons b t ih =>
    simp only [pySortDescByVal, List.foldr_cons] at *
    rw [insertDescByVal_mem, ih, List.mem_cons]

/-- Insertion never empties a list. -/
lemma insertDescByVal_ne_nil (p : String × ℚ) (l : List (String × ℚ)) :
    insertDescByVal p l ≠ [] := by
  cases l with
  | nil => simp [insertDescByVal]
  | cons b t =>
    unfold insertDescByVal
    split <;> simp

/-- The sort is empty iff the input is. -/
lemma pySortDescByVal_eq_nil (d : List (String × ℚ)) :
    pySortDescByVal d = [] ↔ d = [] := by
  cases d with
  | nil => simp [pySortDescByVal]
  | cons b t =>
    simp only [pySortDescByVal, List.foldr_cons]
    constructor
    · intro h
      exact absurd h (insertDescByVal_ne_nil b _)
    · intro h
      exact absurd h (by simp)

/-- The head of the stable descending sort has a maximal value. -/
lemma pySortDescByVal_head_max :
    ∀ (d : List (String × ℚ)) (p : String × ℚ) (rest : List (String × ℚ)),
      pySortDescByVal d = p :: rest → ∀ q ∈ d, q.2 ≤ p.2 := by
  intro d
  induction d with
  | nil => intro p rest h q hq; simp at hq
  | cons a t ih =>
    intro p rest h q hq
    rw [pySortDescByVal_cons] at h
    cases hs : pySortDescByVal t with
    | nil =>
      have ht : t = [] := (pySortDescByVal_eq_nil t).mp hs
      rw [hs] at h
      simp only [insertDescByVal] at h
      rcases List.mem_cons.mp hq with rfl | hq2
      · simp only [List.cons.injEq] at h
        rw [h.1]
      · rw [ht] at hq2
        simp at hq2
    | cons b t2 =>
      rw [hs] at h
      have hbmax : ∀ x ∈ t, x.2 ≤ b.2 := ih b t2 hs
      unfold insertDescByVal at h
      split at h
      · rename_i hba
        simp only [List.cons.injEq] at h
        rcases List.mem_cons.mp hq with rfl | hq2
        · rw [h.1]
        · rw [← h.1]
          exact le_trans (hbmax q hq2) hba
      · rename_i hba
        simp only [List.cons.injEq] at h
        rcases List.mem_cons.mp hq with rfl | hq2
        · rw [← h.1]
          exact le_of_not_le hba
        · rw [← h.1]
          exact hbmax q hq2

/-- C8.  (1) In the `{**songs, **videos}` merge a reference present in
both maps keeps the videos-phase value, whatever the songs-phase value
was.  (2) When the ISRC phase cannot exit and the primary phase does not
short-circuit, `YouTubeMusic.search` returns `none` (NotFound) on an
empty merged map, and otherwise a reference carrying the maximal score
of the merged map, having issued exactly the songs- and videos-filtered
requests. -/
theorem c8_merge_last_write_wins :
    (∀ (songs videos : List (String × ℚ)) (k : String) (v2 : ℚ),
      (videos.map Prod.fst).Nodup →
      (dictLookup songs k).isSome →
      dictLookup videos k = some v2 →
      dictLookup (pyDictMerge songs videos) k = some v2) ∧
    (∀ (mp : String → String → ℚ) (slug : String → String)
        (client : String → String → List YouTubeMusic.RawResult) (song : Song)
        (songsMap videosMap : List (String × ℚ)),
      song.isrc = none →
      YouTubeMusic.order_results mp slug
          (YouTubeMusic.get_results client
            (pyLower (create_song_title song.name song.artists)) "songs")
          song.name song.artists song.album_name song.duration = some songsMap →
      (∀ p : String × ℚ, pyMaxByVal songsMap = some p → p.2 < 80) →
      YouTubeMusic.order_results mp slug
          (YouTubeMusic.get_results client
            (pyLower (create_song_title song.name song.artists)) "videos")
          song.name song.artists song.album_name song.duration = some videosMap →
      (pyDictMerge songsMap videosMap = [] →
        YouTubeMusic.search mp slug client song =
          (Except.ok none,
            [(pyLower (create_song_title song.name song.artists), "songs"),
             (pyLower (create_song_title song.name song.artists), "videos")])) ∧
      (pyDictMerge songsMap videosMap ≠ [] →
        ∃ p : String × ℚ, p ∈ pyDictMerge songsMap videosMap ∧
          (∀ q ∈ pyDictMerge songsMap videosMap, q.2 ≤ p.2) ∧
          YouTubeMusic.search mp slug client song =
            (Except.ok (some p.1),
              [(pyLower (create_song_title song.name song.artists), "songs"),
               (pyLower (create_song_title song.name song.artists), "videos")]))) := by
  constructor
  · intro songs videos k v2 hnd _ hl
    exact pyDictMerge_lookup_right videos songs k v2 hnd hl
  · intro mp slug client song songsMap videosMap hisrc hsongs hlow hvids
    unfold YouTubeMusic.search
    rw [hisrc]
    cases hm : pyMaxByVal songsMap with
    | none =>
      simp only [hsongs, hm, hvids, List.nil_append]
      cases hmg : pyDictMerge songsMap videosMap with
      | nil =>
        simp only [hmg]
        exact ⟨fun _ => rfl, fun hne => absurd rfl hne⟩
      | cons m0 mrest =>
        simp only [hmg]
        refine ⟨fun h0 => absurd h0 (by simp), fun _ => ?_⟩
        cases hsrt : pySortDescByVal (m0 :: mrest) with
        | nil => exact absurd hsrt (by simp [pySortDescByVal_eq_nil])
        | cons p rest =>
          refine ⟨p, ?_, ?_, ?_⟩
          · exact (pySortDescByVal_mem _ p).mp
              (by rw [hsrt]; exact List.mem_cons_self p rest)
          · exact pySortDescByVal_head_max _ p rest hsrt
          · simp [hsrt]
    | some best =>
      have hlt : best.2 < 80 := hlow best hm
      simp only [hsongs, hm, if_neg (not_le.mpr hlt), hvids, List.nil_append]
      cases hmg : pyDictMerge songsMap videosMap with
      | nil =>
        simp only [hmg]
        exact ⟨fun _ => rfl, fun hne => absurd rfl hne⟩
      | cons m0 mrest =>
        simp only [hmg]
        refine ⟨fun h0 => absurd h0 (by simp), fun _ => ?_⟩
        cases hsrt : pySortDescByVal (m0 :: mrest) with
        | nil => exact absurd hsrt (by simp [pySortDescByVal_eq_nil])
        | cons p rest =>
          refine ⟨p, ?_, ?_, ?_⟩
          · exact (pySortDescByVal_mem _ p).mp
              (by rw [hsrt]; exact List.mem_cons_self p rest)
          · exact pySortDescByVal_head_max _ p rest hsrt
          · simp [hsrt]

/-- C8 witness: last-write-wins on a concrete collision — the merged map
keeps the (lower) videos-phase score 60 for `"L"`, not the songs-phase
75. -/
theorem c8_merge_last_write_wins_witness :
    dictLookup (pyDictMerge [("L", (75 : ℚ))] [("L", (60 : ℚ))]) "L" = some 60 :=
  c8_merge_last_write_wins.1 [("L", 75)] [("L", 60)] "L" 60
    (by decide) (by decide) (by decide)

/-- Case analysis of the tracked pipeline tail: lyrics, embedding,
completion, m3u.  It adds exactly one terminal event on clean exit and
none when the pending exception reaches the boundary — except that an
m3u append failure arrives after the completion notification. -/
lemma pool_download_tail_spec (cfg : DlConfig) (song : Song) (ops : ItemOps)
    (ns2 ns : List Notif) (e? : Option PyExn)
    (h0 : terminalCount ns2 = 0)
    (h : pool_download_tail true cfg song ops ns2 = (ns, e?)) :
    terminalCount ns ≤ 1 ∧
    (e?.isSome → (∀ e, ops.appendM3u ≠ Except.error e) → terminalCount ns = 0) ∧
    (e? = none → terminalCount ns = 1) := by
  have hdbg : ∀ (b : Bool) (m : String),
      terminalCount (if b = true then [Notif.debug m] else []) = 0 := by
    intro b m
    cases b <;> simp [terminalCount]
  have happ : ∀ (a b : List Notif),
      terminalCount (a ++ b) = terminalCount a + terminalCount b := by
    intro a b
    simp [terminalCount, List.filter_append]
  have hcomp : terminalCount [Notif.complete] = 1 := by simp [terminalCount]
  simp only [pool_download_tail, Bool.and_true, reduceIte] at h
  rcases hly : ops.getLyrics with e | lyr
  · rw [hly] at h
    injection h with h1 h2
    subst h1
    subst h2
    exact ⟨by simp [h0], fun _ _ => h0, by simp⟩
  · rw [hly] at h
    rcases hem : ops.embedMeta with e | u3
    · rw [hem] at h
      injection h with h1 h2
      subst h1
      subst h2
      refine ⟨?_, fun _ _ => ?_, by simp⟩ <;>
        simp [happ, h0, hdbg]
    · rw [hem] at h
      cases hm3 : cfg.m3u_file with
      | some m3u =>
        rw [hm3] at h
        rcases hap : ops.appendM3u with e | u4
        · rw [hap] at h
          injection h with h1 h2
          subst h1
          subst h2
          refine ⟨?_, fun _ hne => absurd rfl (hne e), by simp⟩
          simp [happ, h0, hdbg, hcomp]
        · rw [hap] at h
          injection h with h1 h2
          subst h1
          subst h2
          refine ⟨?_, by simp, fun _ => ?_⟩ <;>
            simp [happ, h0, hdbg, hcomp]
      | none =>
        rw [hm3] at h
        injection h with h1 h2
        subst h1
        subst h2
        refine ⟨?_, by simp, fun _ => ?_⟩ <;>
          simp [happ, h0, hdbg, hcomp]

/-- Case analysis of one tracked pipeline body: it never emits more than
one terminal event, it emits none when an exception reaches the
boundary, and on a clean exit it emits exactly one unless the fetch
returned no file (the silent-drop path). -/
lemma pool_download_body_spec (cfg : DlConfig) (song : Song) (ops : ItemOps)
    (ns : List Notif) (e? : Option PyExn)
    (h : pool_download_body true cfg song ops = (ns, e?)) :
    terminalCount ns ≤ 1 ∧
    (e?.isSome → (∀ e, ops.appendM3u ≠ Except.error e) → terminalCount ns = 0) ∧
    (e? = none →
      (terminalCount ns = 1 ∨
        (terminalCount ns = 0 ∧
          ∃ url, download_single_song song ops = Except.ok (none, url)))) := by
  rcases hdss : download_single_song song ops with e | ⟨tfOpt, url⟩
  · simp only [pool_download_body, reduceIte, hdss] at h
    injection h with h1 h2
    subst h1
    subst h2
    exact ⟨by simp [terminalCount], fun _ _ => by simp [terminalCount], by simp⟩
  · cases tfOpt with
    | none =>
      simp only [pool_download_body, reduceIte, hdss] at h
      injection h with h1 h2
      subst h1
      subst h2
      exact ⟨by simp [terminalCount], by simp, fun _ =>
        Or.inr ⟨by simp [terminalCount], url, rfl⟩⟩
    | some tf =>
      simp only [pool_download_body, reduceIte, hdss] at h
      cases hcf : create_file_name 1000 song cfg.output cfg.output_format false with
      | none =>
        simp only [hcf] at h
        injection h with h1 h2
        subst h1
        subst h2
        exact ⟨by simp [terminalCount], fun _ _ => by simp [terminalCount], by simp⟩
      | some outFile =>
        simp only [hcf] at h
        rcases hmk : (if ops.outputExists = true then Except.ok () else ops.mkdirOutput :
            Except PyExn Unit) with e | u
        · simp only [hmk] at h
          injection h with h1 h2
          subst h1
          subst h2
          exact ⟨by simp [terminalCount], fun _ _ => by simp [terminalCount], by simp⟩
        · simp only [hmk] at h
          rcases hcv : (if pathSuffix tf = ".m4a" ∧ cfg.output_format = "m4a" then
              match ops.renameTemp with
              | Except.error e => Except.error e
              | Except.ok _ => Except.ok (true, none)
            else
              match ops.convert with
              | Except.error e => Except.error e
              | Except.ok sc =>
                match ops.unlinkTemp with
                | Except.error e => Except.error e
                | Except.ok _ => Except.ok sc) with e | ⟨success, error_message⟩
          · simp only [hcv] at h
            injection h with h1 h2
            subst h1
            subst h2
            exact ⟨by simp [terminalCount], fun _ _ => by simp [terminalCount], by simp⟩
          · simp only [hcv] at h
            have htail : ∀ hh : pool_download_tail true cfg song ops
                ([Notif.log ("Downloaded \"" ++ song.display_name ++ "\": " ++ url)] ++
                  [Notif.downloadComplete] ++ [Notif.conversionComplete]) = (ns, e?),
                terminalCount ns ≤ 1 ∧
                  (e?.isSome → (∀ e, ops.appendM3u ≠ Except.error e) →
                    terminalCount ns = 0) ∧
                  (e? = none →
                    (terminalCount ns = 1 ∨
                      (terminalCount ns = 0 ∧
                        ∃ url2, (Except.ok (some tf, url) :
                          Except PyExn (Option String × String)) =
                            Except.ok (none, url2)))) := by
              intro hh
              obtain ⟨a, b, c⟩ := pool_download_tail_spec cfg song ops _ ns e?
                (by simp [terminalCount]) hh
              exact ⟨a, b, fun hn => Or.inl (c hn)⟩
            cases error_message with
            | none =>
              simp only [Bool.and_false, Bool.false_eq_true, reduceIte] at h
              exact htail h
            | some m =>
              dsimp only at h
              rcases Bool.eq_false_or_eq_true (decide (success = false)) with hs | hs
              case inr =>
                rw [hs] at h
                simp only [Bool.false_and, Bool.false_eq_true, reduceIte] at h
                exact htail h
              case inl =>
                rw [hs] at h
                rcases Bool.eq_false_or_eq_true (decide (m ≠ "")) with hm | hm
                case inr =>
                  rw [hm] at h
                  simp only [Bool.and_false, Bool.false_eq_true, reduceIte] at h
                  exact htail h
                case inl =>
                  rw [hm] at h
                  simp only [Bool.and_self, reduceIte] at h
                  rcases hwr : ops.writeErrorFile with e | u2
                  · rw [hwr] at h
                    injection h with h1 h2
                    subst h1
                    subst h2
                    exact ⟨by simp [terminalCount], fun _ _ => by simp [terminalCount],
                      by simp⟩
                  · rw [hwr] at h
                    injection h with h1 h2
                    subst h1
                    subst h2
                    exact ⟨by simp [terminalCount], fun _ _ => by simp [terminalCount],
                      by simp⟩

/-- With a tracker attached, one pipeline run always returns normally,
and its notifications carry exactly one terminal event (the failure note
or the completion) — except on the silent fetch-returned-no-file path
(no terminal event) and the m3u-append-failed-after-completion path (a
completion and then a failure note). -/
lemma pool_download_tracked (cfg : DlConfig) (song : Song) (ops : ItemOps) :
    ∃ ns, pool_download true cfg song ops = Except.ok ns ∧
      terminalCount ns ≤ 2 ∧
      ((∀ url, download_single_song song ops ≠ Except.ok (none, url)) →
        (∀ e, ops.appendM3u ≠ Except.error e) →
        terminalCount ns = 1) := by
  rcases hb : pool_download_body true cfg song ops with ⟨bs, e?⟩
  obtain ⟨hle, hsome, hnone⟩ := pool_download_body_spec cfg song ops bs e? hb
  have happ : ∀ (a b : List Notif),
      terminalCount (a ++ b) = terminalCount a + terminalCount b := by
    intro a b
    simp [terminalCount, List.filter_append]
  cases e? with
  | none =>
    refine ⟨bs, ?_, by omega, fun hnofetch _ => ?_⟩
    · simp [pool_download, hb]
    · rcases hnone rfl with h1 | ⟨_, url, hurl⟩
      · exact h1
      · exact absurd hurl (hnofetch url)
  | some e =>
    refine ⟨bs ++ [Notif.errorNote (PyExn.traceback e) (PyExn.str e)], ?_, ?_, ?_⟩
    · simp [pool_download, hb]
    · have := happ bs [Notif.errorNote (PyExn.traceback e) (PyExn.str e)]
      have h1 : terminalCount [Notif.errorNote (PyExn.traceback e) (PyExn.str e)] = 1 := by
        simp [terminalCount]
      omega
    · intro _ hne
      have h0 : terminalCount bs = 0 := hsome rfl hne
      have h1 : terminalCount [Notif.errorNote (PyExn.traceback e) (PyExn.str e)] = 1 := by
        simp [terminalCount]
      rw [happ, h0, h1]

/-- C1, amended.  Provided a progress tracker is attached: (1) no
exception ever propagates out of `_pool_download`; (2) a run whose fetch
step actually produced a file, and whose m3u append does not fail,
reports exactly one terminal outcome (failure note or completion); (3)
the batch gather returns one notification list per submitted track,
each computed independently of its siblings.  (Without a tracker the
boundary re-raises — see the counterexample; a fetch that returns no
file is dropped silently, and an m3u-append failure arrives after the
completion notification — both caveats are visible in
`pool_download_tracked`.) -/
theorem c1_failure_isolation :
    (∀ (cfg : DlConfig) (song : Song) (ops : ItemOps),
      ∃ ns, pool_download true cfg song ops = Except.ok ns) ∧
    (∀ (cfg : DlConfig) (song : Song) (ops : ItemOps) (ns : List Notif),
      pool_download true cfg song ops = Except.ok ns →
      (∀ url, download_single_song song ops ≠ Except.ok (none, url)) →
      (∀ e, ops.appendM3u ≠ Except.error e) →
      terminalCount ns = 1) ∧
    (∀ (cfg : DlConfig) (items : List Item),
      download_asynchronously true cfg items =
        Except.ok (items.map (trackedNotifs cfg))) := by
  refine ⟨?_, ?_, ?_⟩
  · intro cfg song ops
    obtain ⟨ns, hns, -, -⟩ := pool_download_tracked cfg song ops
    exact ⟨ns, hns⟩
  · intro cfg song ops ns hns hfetch hm3u
    obtain ⟨ns2, hns2, -, hone⟩ := pool_download_tracked cfg song ops
    rw [hns] at hns2
    injection hns2 with h
    rw [h]
    exact hone hfetch hm3u
  · intro cfg items
    induction items with
    | nil => rfl
    | cons it rest ih =>
      obtain ⟨ns, hns, -, -⟩ := pool_download_tracked cfg it.song it.ops
      simp only [download_asynchronously, List.map_cons] at ih ⊢
      simp only [gatherExcept, hns, ih, trackedNotifs]

/-- C1 counterexample: with no progress handler configured, a transport
error in the search step escapes `_pool_download` as a `DownloaderError`
and aborts the whole batch gather — the healthy sibling's outcome is
gone. -/
theorem c1_counterexample :
    pool_download false cfg0 songA opsTransport =
      Except.error
        ⟨"DownloaderError",
          "Unable to get audio stream for \"a - test: https://open.spotify.com/track/id1\"",
          [("HTTPError", "connection reset")]⟩ ∧
    download_asynchronously false cfg0 [⟨songA, opsTransport⟩, ⟨songA, okOps⟩] =
      Except.error
        ⟨"DownloaderError",
          "Unable to get audio stream for \"a - test: https://open.spotify.com/track/id1\"",
          [("HTTPError", "connection reset")]⟩ := by
  constructor <;> rfl

/-- C1 witness: a failing tracked run reports exactly one outcome. -/
theorem c1_failure_isolation_witness :
    terminalCount (trackedNotifs cfg0 ⟨songA, opsTransport⟩) = 1 :=
  c1_failure_isolation.2.1 cfg0 songA opsTransport
    (trackedNotifs cfg0 ⟨songA, opsTransport⟩) (by rfl)
    (fun url h => by simp [download_single_song, songA, opsTransport] at h)
    (fun e h => by simp [opsTransport, okOps] at h)

/-- C3, amended.  At the pipeline's public interface an empty search
result and a raising search call are *not* distinguished: the empty
result raises `LookupError("No results found ...")`, both exceptions are
wrapped into the same `DownloaderError` with the same message, and both
runs surface as the `failed` outcome with identical short error
messages; only the chained cause in the debug detail differs.  The
spec's `notFound` outcome variant is never produced. -/
theorem c3_notfound_conflated (cfg : DlConfig) (song : Song)
    (ops ops2 : ItemOps) (e : PyExn) (hurl : song.download_url = none)
    (h1 : ops.search = Except.ok none) (h2 : ops2.search = Except.error e) :
    classifyNotifs (trackedNotifs cfg ⟨song, ops⟩) = ItemOutcome.failed ∧
    classifyNotifs (trackedNotifs cfg ⟨song, ops2⟩) = ItemOutcome.failed ∧
    shortErrorMsg (trackedNotifs cfg ⟨song, ops⟩) =
      shortErrorMsg (trackedNotifs cfg ⟨song, ops2⟩) := by
  have d1 : download_single_song song ops = Except.error
      (PyExn.mk "LookupError"
        ("No results found for song: " ++ song.name ++ " - " ++ song.artist) []) := by
    unfold download_single_song
    rw [hurl, h1]
  have d2 : download_single_song song ops2 = Except.error e := by
    unfold download_single_song
    rw [hurl, h2]
  refine ⟨?_, ?_, ?_⟩
  · simp [classifyNotifs, hasErrorNote, trackedNotifs, pool_download,
      pool_download_body, reduceIte, d1]
  · simp [classifyNotifs, hasErrorNote, trackedNotifs, pool_download,
      pool_download_body, reduceIte, d2]
  · simp [shortErrorMsg, trackedNotifs, pool_download, pool_download_body,
      reduceIte, d1, d2, PyExn.wrap, PyExn.str]

/-- C3 counterexample: for a concrete track, a legitimately empty search
and a transport error produce the same `failed` outcome with the same
user-facing message; the empty search is not reported as a NotFound
outcome. -/
theorem c3_counterexample :
    classifyNotifs (trackedNotifs cfg0 ⟨songA, opsNotFound⟩) = ItemOutcome.failed ∧
    classifyNotifs (trackedNotifs cfg0 ⟨songA, opsNotFound⟩) ≠ ItemOutcome.notFound ∧
    classifyNotifs (trackedNotifs cfg0 ⟨songA, opsTransport⟩) = ItemOutcome.failed ∧
    shortErrorMsg (trackedNotifs cfg0 ⟨songA, opsNotFound⟩) =
      shortErrorMsg (trackedNotifs cfg0 ⟨songA, opsTransport⟩) := by
  refine ⟨rfl, ?_, rfl, rfl⟩
  intro h
  rw [show classifyNotifs (trackedNotifs cfg0 ⟨songA, opsNotFound⟩) =
    ItemOutcome.failed from rfl] at h
  exact ItemOutcome.noConfusion h

/-- C3 witness: the amended statement at a concrete song and a concrete
pair of failing collaborators. -/
theorem c3_notfound_conflated_witness :
    classifyNotifs (trackedNotifs cfg0 ⟨songA, opsNotFound⟩) = ItemOutcome.failed ∧
    classifyNotifs (trackedNotifs cfg0 ⟨songA, opsTimeout⟩) = ItemOutcome.failed ∧
    shortErrorMsg (trackedNotifs cfg0 ⟨songA, opsNotFound⟩) =
      shortErrorMsg (trackedNotifs cfg0 ⟨songA, opsTimeout⟩) :=
  c3_notfound_conflated cfg0 songA opsNotFound opsTimeout
    ⟨"ReadTimeout", "request timed out", []⟩ rfl rfl rfl

/-- A prefix only uses characters of the larger list. -/
lemma mem_of_isPrefixOf :
    ∀ (k hay : List Char), k.isPrefixOf hay = true → ∀ c ∈ k, c ∈ hay := by
  intro k
  induction k with
  | nil => intro hay _ c hc; simp at hc
  | cons a k ih =>
    intro hay hp c hc
    cases hay with
    | nil => simp [List.isPrefixOf] at hp
    | cons b t =>
      simp only [List.isPrefixOf, Bool.and_eq_true, beq_iff_eq] at hp
      rcases List.mem_cons.mp hc with rfl | hc2
      · simp [hp.1]
      · exact List.mem_cons_of_mem b (ih t hp.2 c hc2)

/-- A needle containing a character the haystack lacks is not a
substring. -/
lemma containsSub_eq_false (k : List Char) (hk : curlyChar ∈ k) :
    ∀ hay : List Char, curlyChar ∉ hay → containsSub hay k = false := by
  intro hay
  induction hay with
  | nil =>
    intro _
    have hp : k.isPrefixOf ([] : List Char) = false := by
      cases hq : k.isPrefixOf ([] : List Char)
      · rfl
      · exact absurd (mem_of_isPrefixOf k [] hq curlyChar hk) (by simp)
    simp [containsSub, hp]
  | cons c t ih =>
    intro hh
    have hp : k.isPrefixOf (c :: t) = false := by
      cases hq : k.isPrefixOf (c :: t)
      · rfl
      · exact absurd (mem_of_isPrefixOf k (c :: t) hq curlyChar hk) hh
    simp only [containsSub, hp, Bool.false_or]
    exact ih (fun hmem => hh (List.mem_cons_of_mem c hmem))

/-- A short prefix test only looks at the first list of an append. -/
lemma isPrefixOf_append_left :
    ∀ (q a b : List Char), q.length ≤ a.length →
      q.isPrefixOf (a ++ b) = q.isPrefixOf a := by
  intro q
  induction q with
  | nil => intro a b _; simp [List.isPrefixOf]
  | cons x q ih =>
    intro a b hlen
    cases a with
    | nil => simp at hlen
    | cons y a2 =>
      simp only [List.cons_append, List.isPrefixOf, List.append_eq]
      rw [ih a2 b (by simpa using hlen)]

/-- `String.append` concatenates the underlying character lists. -/
lemma strDataAppend (a b : String) : (a ++ b).data = a.data ++ b.data := rfl

/-- `endswith` on an append only looks at the second part when the
suffix is short enough. -/
lemma strEndsWith_append (t u v : String) (h : v.data.length ≤ u.data.length) :
    strEndsWith (t ++ u) v = strEndsWith u v := by
  unfold strEndsWith
  rw [strDataAppend, List.reverse_append,
    isPrefixOf_append_left _ _ _ (by simpa using h)]

/-- `str.replace` leaves a brace-free prefix untouched when the pattern
starts with a brace. -/
lemma pyReplaceAux_append (k v : List Char) (k1 : List Char)
    (hk : k = curlyChar :: k1) :
    ∀ (t : List Char), curlyChar ∉ t → ∀ (fuel : Nat) (u : List Char),
      pyReplaceAux k v (t.length + fuel) (t ++ u) =
        t ++ pyReplaceAux k v fuel u := by
  intro t
  induction t with
  | nil => intro _ fuel u; simp
  | cons c t2 ih =>
    intro hc fuel u
    have hcne : c ≠ curlyChar := fun h => hc (h ▸ List.mem_cons_self c t2)
    have hp : k.isPrefixOf (c :: (t2 ++ u)) = false := by
      rw [hk]
      simp only [List.isPrefixOf]
      rw [beq_eq_false_iff_ne.mpr (fun h => hcne h.symm), Bool.false_and]
    have hp2 : (k.isPrefixOf (c :: (t2 ++ u)) && !k.isEmpty) = false := by
      rw [hp, Bool.false_and]
    have hlen : (c :: t2).length + fuel = (t2.length + fuel) + 1 := by
      simp only [List.length_cons]
      omega
    rw [hlen]
    simp only [List.cons_append, List.append_eq, pyReplaceAux]
    rw [show ((t2 ++ u : List Char).cons c) = c :: (t2 ++ u) from rfl] at hp2
    simp only [hp2, Bool.false_eq_true, if_false]
    rw [ih (fun hm => hc (List.mem_cons_of_mem c hm)) fuel u]

/-- String-level version of `pyReplaceAux_append`. -/
lemma pyReplace_append (t u k v : String)
    (hk : ∃ k1, k.data = curlyChar :: k1) (ht : curlyChar ∉ t.data) :
    pyReplace (t ++ u) k v = t ++ pyReplace u k v := by
  obtain ⟨k1, hk1⟩ := hk
  unfold pyReplace pyReplaceL
  apply congrArg String.mk
  rw [strDataAppend, List.length_append,
    pyReplaceAux_append k.data v.data k1 hk1 t.data ht u.data.length u.data]

/-- The whole replacement loop leaves a brace-free prefix untouched. -/
lemma foldl_replace_append (pairs : List (String × String)) :
    ∀ (t u : String), curlyChar ∉ t.data →
      (∀ kv ∈ pairs, ∃ k1, kv.1.data = curlyChar :: k1) →
      pairs.foldl (fun acc kv => pyReplace acc kv.1 kv.2) (t ++ u) =
        t ++ pairs.foldl (fun acc kv => pyReplace acc kv.1 kv.2) u := by
  induction pairs with
  | nil => intro t u _ _; rfl
  | cons kv rest ih =>
    intro t u ht hp
    simp only [List.foldl_cons]
    rw [pyReplace_append t u kv.1 kv.2 (hp kv (List.mem_cons_self kv rest)) ht]
    exact ih t (pyReplace u kv.1 kv.2) ht
      (fun x hx => hp x (List.mem_cons_of_mem kv hx))

/-- The splitter never returns an empty list of segments. -/
lemma splitOnCharL_ne_nil (sep : Char) : ∀ cs, splitOnCharL sep cs ≠ [] := by
  intro cs
  cases cs with
  | nil => simp [splitOnCharL]
  | cons c cs =>
    simp only [splitOnCharL]
    split
    · simp
    · split <;> simp

/-- Splitting around an explicit separator concatenates the splits. -/
lemma splitOnCharL_append (sep : Char) (ys : List Char) :
    ∀ xs, splitOnCharL sep (xs ++ sep :: ys) =
      splitOnCharL sep xs ++ splitOnCharL sep ys := by
  intro xs
  induction xs with
  | nil => simp [splitOnCharL]
  | cons c xs ih =>
    simp only [List.cons_append, splitOnCharL, List.append_eq]
    rw [ih]
    by_cases hc : c = sep
    · simp [hc]
    · simp only [hc, if_false]
      cases hs : splitOnCharL sep xs with
      | nil => exact absurd hs (splitOnCharL_ne_nil sep xs)
      | cons h t => simp

/-- A separator-free list is a single segment. -/
lemma splitOnCharL_no_sep (sep : Char) :
    ∀ cs, sep ∉ cs → splitOnCharL sep cs = [cs] := by
  intro cs
  induction cs with
  | nil => intro _; rfl
  | cons c cs ih =>
    intro h
    have hc : ¬ c = sep := fun he => h (he ▸ List.mem_cons_self c cs)
    simp only [splitOnCharL, ih (fun hm => h (List.mem_cons_of_mem c hm)), hc,
      if_false]

/-- A slash-free, nonempty, non-dot string is its own single path
component. -/
lemma pathComponents_single (u : String) (hu : '/' ∉ u.data) (hne : u ≠ "")
    (hdot : u ≠ ".") : pathComponents u = [u] := by
  unfold pathComponents
  rw [splitOnCharL_no_sep _ _ hu]
  simp [List.filter, hne, hdot]

/-- Appending `"/" ++ u` appends one component. -/
lemma pathComponents_append (t u : String) (hu : '/' ∉ u.data)
    (hne : u ≠ "") (hdot : u ≠ ".") :
    pathComponents (t ++ ("/" ++ u)) = pathComponents t ++ [u] := by
  have hdata : (t ++ ("/" ++ u)).data = t.data ++ '/' :: u.data := by
    rw [strDataAppend, strDataAppend]
    rfl
  unfold pathComponents
  rw [hdata, splitOnCharL_append, splitOnCharL_no_sep _ _ hu]
  simp only [List.map_append, List.filter_append, List.map_cons, List.map_nil]
  congr 1
  simp [List.filter, hne, hdot]

/-- The default-valued last element of a list ending in `a` is `a`. -/
lemma getLastD_append_singleton (xs : List String) (a : String) :
    ∀ d, (xs ++ [a]).getLastD d = a := by
  intro d
  exact List.getLastD_concat d a xs

/-- The path name of parts ending in a clean component is that
component. -/
lemma pathName_of_clean_last (parts : List String) (u : String)
    (hu : '/' ∉ u.data) (hne : u ≠ "") (hdot : u ≠ ".") :
    pathName (parts ++ [u]) = u := by
  unfold pathName
  rw [List.flatMap_append]
  have h1 : ([u] : List String).flatMap pathComponents = [u] := by
    simp [pathComponents_single u hu hne hdot]
  rw [h1, getLastD_append_singleton]

/-- A list whose `head?` is `some c` starts with `c`. -/
lemma exists_cons_of_head? (l : List Char) (c : Char) (h : l.head? = some c) :
    ∃ t, l = c :: t := by
  cases l with
  | nil => simp at h
  | cons x xs =>
    simp only [List.head?_cons, Option.some.injEq] at h
    exact ⟨xs, by rw [h]⟩

/-- A brace-free template contains none of the format keys. -/
lemma c10_no_key_in (t : String) (ht : curlyChar ∉ t.data) (short : Bool) :
    (formatKVs songLong "mp3" short).any (fun kv => strContainsSub t kv.1) = false := by
  rw [List.any_eq_false]
  intro kv hkv
  have hcur : curlyChar ∈ kv.1.data := by
    cases short <;>
      · simp only [formatKVs] at hkv
        fin_cases hkv <;> decide
  have hc := containsSub_eq_false kv.1.data hcur t.data ht
  simp only [strContainsSub, hc, Bool.false_eq_true, not_false_eq_true]

/-- Every format key starts with a brace, also after value
sanitization. -/
lemma c10_pairs_curly (short : Bool) :
    ∀ kv ∈ (formatKVs songLong "mp3" short).map
        (fun kv => (kv.1, sanitize_string kv.2)),
      ∃ k1, kv.1.data = curlyChar :: k1 := by
  intro kv hkv
  obtain ⟨kv0, hkv0, rfl⟩ := List.mem_map.mp hkv
  apply exists_cons_of_head?
  cases short <;>
    · simp only [formatKVs] at hkv0
      fin_cases hkv0 <;> decide

set_option maxRecDepth 100000

/-- The substituted per-step suffix for `songLong` is `longTail`. -/
lemma c10_fold_lit (short : Bool) :
    ((formatKVs songLong "mp3" short).map
        (fun kv => (kv.1, sanitize_string kv.2))).foldl
      (fun acc kv => pyReplace acc kv.1 kv.2)
      "/{artists} - {title}.{output-ext}" = longTail := by
  cases short <;> decide

/-- The final path component of any brace-free template extended by
`longTail` is the 308-character short name. -/
lemma c10_name (t : String) :
    pathName ((pathParts (t ++ longTail)).map regexSanitizePart) = shortNameLong := by
  have hcomp : pathComponents (t ++ longTail) = pathComponents t ++ [shortNameLong] := by
    rw [show t ++ longTail = t ++ ("/" ++ shortNameLong) from rfl]
    exact pathComponents_append t shortNameLong (by decide) (by decide) (by decide)
  unfold pathParts
  split
  · rw [hcomp,
      show ("/" :: (pathComponents t ++ [shortNameLong])).map regexSanitizePart =
        (("/" :: pathComponents t).map regexSanitizePart) ++
          [regexSanitizePart shortNameLong] by simp,
      show regexSanitizePart shortNameLong = shortNameLong from by decide]
    exact pathName_of_clean_last _ shortNameLong (by decide) (by decide) (by decide)
  · rw [hcomp,
      show (pathComponents t ++ [shortNameLong]).map regexSanitizePart =
        ((pathComponents t).map regexSanitizePart) ++
          [regexSanitizePart shortNameLong] by simp,
      show regexSanitizePart shortNameLong = shortNameLong from by decide]
    exact pathName_of_clean_last _ shortNameLong (by decide) (by decide) (by decide)

/-- One unfolding of `create_file_name` on `songLong` and a brace-free
template: every conditional append fires as in the source, the
substituted name is 308 characters long, and the function recurses on
the grown template with `short := true`. -/
lemma c10_step (short : Bool) (t : String) (ht : curlyChar ∉ t.data) (fuel : Nat) :
    create_file_name (fuel + 1) songLong t "mp3" short =
      create_file_name fuel songLong (t ++ longTail) "mp3" true := by
  simp only [create_file_name, c10_no_key_in t ht short, Bool.not_false, if_true,
    strEndsWith_append t "/{artists} - {title}.{output-ext}" "/" (by decide),
    strEndsWith_append t "/{artists} - {title}.{output-ext}" "\\\\" (by decide),
    strEndsWith_append t "/{artists} - {title}.{output-ext}" ".{output-ext}" (by decide),
    show strEndsWith "/{artists} - {title}.{output-ext}" "/" = false from by decide,
    show strEndsWith "/{artists} - {title}.{output-ext}" "\\\\" = false from by decide,
    show strEndsWith "/{artists} - {title}.{output-ext}" ".{output-ext}" = true from by decide,
    Bool.or_self, Bool.not_true, Bool.false_eq_true, if_false, reduceIte]
  rw [foldl_replace_append _ t "/{artists} - {title}.{output-ext}" ht
    (c10_pairs_curly short), c10_fold_lit short, c10_name t,
    if_pos (by decide : 255 < shortNameLong.length)]

/-- Once the template is brace-free, every further fuel level still
recurses: the short-mode name never fits in 255 characters. -/
lemma c10_aux : ∀ (fuel : Nat) (t : String), curlyChar ∉ t.data →
    create_file_name fuel songLong t "mp3" true = none := by
  intro fuel
  induction fuel with
  | zero => intro t _; rfl
  | succ n ih =>
    intro t ht
    rw [c10_step true t ht n]
    apply ih
    intro hmem
    rw [strDataAppend] at hmem
    rcases List.mem_append.mp hmem with h | h
    · exact ht h
    · exact absurd h (by decide)

/-- C10.  `create_file_name` does not terminate on a song whose title
alone exceeds 255 characters: for every recursion depth the computation
is still recursing (in CPython this is a `RecursionError`).  The
over-length check re-fires forever because the recursive call receives
the already-substituted template and appends a fresh
`{artists} - {title}.{output-ext}` component whose substituted form —
the 308-character `shortNameLong` — never fits in 255 characters. -/
theorem c10_create_file_name_diverges :
    ∀ fuel : Nat, create_file_name fuel songLong "." "mp3" false = none := by
  intro fuel
  cases fuel with
  | zero => rfl
  | succ n =>
    rw [c10_step false "." (by decide) n]
    apply c10_aux
    intro hmem
    rw [strDataAppend] at hmem
    rcases List.mem_append.mp hmem with h | h
    · exact absurd h (by decide)
    · exact absurd h (by decide)

/-- C10 witness: the divergence theorem applied at depth 5. -/
theorem c10_create_file_name_diverges_witness :
    create_file_name 5 songLong "." "mp3" false = none :=
  c10_create_file_name_diverges 5

end SpotdlV4
